import Mathlib

/-!
Shallow embedding of the convolutional feature-learning pipeline of libdeep
(`src/deeplearn_pooling.c`, `src/deeplearn_features.c`, `src/deeplearn_conv.c`,
`src/autocoder.c`) and proofs about it.

Modelling conventions:
* C `float` values are modelled as exact rationals (`ℚ`); float literals such
  as `0.99f` are modelled by the rational they denote in the source text.
* C `int` loop counters and sizes are modelled as `ℕ` where the source only
  ever holds non-negative values, and as `ℤ` where a value can go negative
  (patch coordinates).  C integer division on non-negative operands agrees
  with `Nat` division; where a genuinely signed division occurs we use
  `Int.tdiv`, which truncates towards zero exactly as C division does.
* C arrays are modelled as total functions `ℕ → ℚ` together with an explicit
  point update `arraySet`; a C function that mutates a caller-supplied buffer
  is modelled as returning the new buffer.
* A C function returning a status `int` while mutating state is modelled as
  returning the pair (status, new state).
-/

/-- Point update of a buffer, modelling a single C array store `a[i] = v`. -/
def arraySet (a : ℕ → ℚ) (i : ℕ) (v : ℚ) : ℕ → ℚ :=
  fun k => if k = i then v else a k

/-! ### Pooling (`src/deeplearn_pooling.c`) -/

/-- Inner loop of `pooling_from_flt_to_flt` (lines 73-76): for each channel
`d < depth`, if `layer0[n0+d] > layer1[n1+d]` then `layer1[n1+d] = layer0[n0+d]`. -/
def pool_cell (depth : ℕ) (layer0 : ℕ → ℚ) (n0 n1 : ℕ) (layer1 : ℕ → ℚ) : ℕ → ℚ :=
  (List.range depth).foldl
    (fun acc d => if layer0 (n0 + d) > acc (n1 + d) then
        arraySet acc (n1 + d) (layer0 (n0 + d)) else acc)
    layer1

/-- `pooling_from_flt_to_flt` (`src/deeplearn_pooling.c` lines 43-81): max-pools
`layer0` (layer0_across × layer0_down × depth) into `layer1`
(layer1_across × layer1_down × depth).  Fails with -1 when the second layer has
more cells than the first; when the cell counts are equal it degenerates to a
`memcpy`; otherwise the destination is zeroed and accumulates the per-channel
maximum of the source cells mapping onto each destination cell under
`x1 = x0*layer1_across/layer0_across`, `y1 = y0*layer1_down/layer0_down`. -/
def pooling_from_flt_to_flt (depth layer0_across layer0_down : ℕ) (layer0 : ℕ → ℚ)
    (layer1_across layer1_down : ℕ) (layer1 : ℕ → ℚ) : ℤ × (ℕ → ℚ) :=
  if layer1_across * layer1_down > layer0_across * layer0_down then (-1, layer1)
  else if layer1_across * layer1_down = layer0_across * layer0_down then
    (0, fun k => if k < layer1_across * layer1_down * depth then layer0 k else layer1 k)
  else
    let cleared : ℕ → ℚ := fun k => if k < layer1_across * layer1_down * depth then 0 else layer1 k
    (0, (List.range layer0_down).foldl
      (fun acc y0 => (List.range layer0_across).foldl
        (fun acc2 x0 =>
          pool_cell depth layer0 ((y0 * layer0_across + x0) * depth)
            (((y0 * layer1_down / layer0_down) * layer1_across
              + x0 * layer1_across / layer0_across) * depth) acc2)
        acc)
      cleared)

/-- `unpooling_from_flt_to_flt` (`src/deeplearn_pooling.c` lines 94-128): the
guard (lines 103-105) rejects the call when the destination (`original_layer`)
has more cells than the source (`pooled_layer`); equal cell counts degenerate
to a `memcpy`; otherwise each destination cell copies its mapped source cell,
per channel. -/
def unpooling_from_flt_to_flt (depth pooled_layer_across pooled_layer_down : ℕ)
    (pooled_layer : ℕ → ℚ) (original_layer_across original_layer_down : ℕ)
    (original_layer : ℕ → ℚ) : ℤ × (ℕ → ℚ) :=
  if original_layer_across * original_layer_down >
      pooled_layer_across * pooled_layer_down then (-1, original_layer)
  else if original_layer_across * original_layer_down =
      pooled_layer_across * pooled_layer_down then
    (0, fun k => if k < pooled_layer_across * pooled_layer_down * depth
          then pooled_layer k else original_layer k)
  else
    (0, (List.range original_layer_down).foldl
      (fun acc y_original => (List.range original_layer_across).foldl
        (fun acc2 x_original => (List.range depth).foldl
          (fun acc3 d =>
            arraySet acc3 ((y_original * original_layer_across + x_original) * depth + d)
              (pooled_layer
                (((y_original * pooled_layer_down / original_layer_down) * pooled_layer_across
                  + x_original * pooled_layer_across / original_layer_across) * depth + d)))
          acc2)
        acc)
      original_layer)

/-! ### Patch geometry (`src/deeplearn_features.c` lines 291-320) -/

/-- Result of `features_patch_coords`: the status and the four out-parameters.
The field `b_y` models the C out-parameter `by` (`by` is reserved in Lean).
On the early returns -1 and -2 the C function has not yet written `tx`/`bx`;
every caller in the repository initialises them to 0, which is the value kept
here. -/
structure PatchResult where
  status : ℤ
  tx : ℤ
  ty : ℤ
  bx : ℤ
  b_y : ℤ
deriving DecidableEq, Repr

/-- `features_patch_coords` (`src/deeplearn_features.c` lines 291-320): scales
the grid coordinate (x,y) to the centre `(cx,cy)` of the patch and returns the
box `[cx-r, cx+r) × [cy-r, cy+r)`, with a distinct status per clipped edge:
-1 top, -2 bottom, -3 left, -4 right, checked in that order. -/
def features_patch_coords (x y samples_across samples_down patch_radius width height : ℤ) :
    PatchResult :=
  let cy := Int.tdiv (y * height) samples_down
  let cx := Int.tdiv (x * width) samples_across
  let ty := cy - patch_radius
  let b_y := cy + patch_radius
  if ty < 0 then ⟨-1, 0, ty, 0, b_y⟩
  else if b_y ≥ height then ⟨-2, 0, ty, 0, b_y⟩
  else
    let tx := cx - patch_radius
    let bx := cx + patch_radius
    if tx < 0 then ⟨-3, tx, ty, bx, b_y⟩
    else if bx ≥ width then ⟨-4, tx, ty, bx, b_y⟩
    else ⟨0, tx, ty, bx, b_y⟩

/-! ### Convolution-pipeline geometry (`src/deeplearn_conv.c`) -/

/-- `conv_layer_features` (`src/deeplearn_conv.c` lines 169-173): number of
features of the given layer,
`max_features - (max_features/2) * layer_index / no_of_layers`. -/
def conv_layer_features (max_features no_of_layers layer_index : ℕ) : ℕ :=
  max_features - max_features / 2 * layer_index / no_of_layers

/-- Input depth used by `conv_init` (`src/deeplearn_conv.c` lines 113-126) to
size the autocoder of layer `i`: `conv_layer_features(conv, i)` in general,
overridden with the input image depth when `i = 0`. -/
def conv_init_ac_depth (inputs_depth max_features no_of_layers i : ℕ) : ℕ :=
  if i = 0 then inputs_depth else conv_layer_features max_features no_of_layers i

/-- Source depth passed by `conv_subsequent` (`src/deeplearn_conv.c` lines
413-442) when scanning layer `layer_index - 1`'s pooled output:
`conv_layer_features(conv, layer_index)` — the feature count of the
consuming layer itself. -/
def conv_subsequent_src_depth (max_features no_of_layers layer_index : ℕ) : ℕ :=
  conv_layer_features max_features no_of_layers layer_index

/-- The clamp `if (v < 4) v = 4` applied by `conv_init` after each division
(`src/deeplearn_conv.c` lines 97-98 and 138-139). -/
def clamp4 (n : ℕ) : ℕ :=
  if n < 4 then 4 else n

/-- The grid dimensions produced by the layer loop of `conv_init`
(`src/deeplearn_conv.c` lines 93-145) for layer `i`: the running `across`/`down`
values are divided by `reduction_factor` and clamped to a minimum of 4 (giving
the layer's `units_across`/`units_down` and the convolution-buffer grid),
then divided by `pooling_factor` and clamped to a minimum of 4 (giving the
pooling-buffer grid, which seeds the next layer).  The first component is the
convolution grid, the second the pooling grid. -/
def conv_layer_dims (reduction_factor pooling_factor inputs_across inputs_down : ℕ) :
    ℕ → (ℕ × ℕ) × (ℕ × ℕ)
  | 0 =>
    let a := clamp4 (inputs_across / reduction_factor)
    let d := clamp4 (inputs_down / reduction_factor)
    ((a, d), (clamp4 (a / pooling_factor), clamp4 (d / pooling_factor)))
  | i + 1 =>
    let prev := conv_layer_dims reduction_factor pooling_factor inputs_across inputs_down i
    let a := clamp4 (prev.2.1 / reduction_factor)
    let d := clamp4 (prev.2.2 / reduction_factor)
    ((a, d), (clamp4 (a / pooling_factor), clamp4 (d / pooling_factor)))

/-! ### Autocoder state (`src/autocoder.c`)

The autocoder structure `ac` (its header is not part of the sources; the field
list below is the set of fields accessed by `src/autocoder.c`).  The activation
function `AF` expands to `1/(1+exp(-x))` (`globals.h` line 54); `exp` comes
from the C math library, an external collaborator, so `AF` is kept as an
uninterpreted parameter `af : ℚ → ℚ` of every definition that uses it.
`rand_num` lives in `deeplearn_random.c`, which is not among the sources.
Modelled from the spec: the random source is "a seeded counter-style
generator" whose calls advance the seed deterministically; it is modelled by a
parameter `rn : ℕ → ℕ` where a call `rand_num(&seed)` performs
`seed = rn seed` and returns the new seed value. -/

/-- The autocoder record `ac` with the fields used by `src/autocoder.c`.
`AUTOCODER_UNKNOWN = AUTOCODER_DROPPED_OUT = -9999` (`globals.h`). -/
structure AcState where
  no_of_inputs : ℕ
  no_of_hiddens : ℕ
  inputs : ℕ → ℚ
  hiddens : ℕ → ℚ
  bias : ℕ → ℚ
  weights : ℕ → ℚ
  last_weight_change : ℕ → ℚ
  outputs : ℕ → ℚ
  bperr : ℕ → ℚ
  last_bias_change : ℕ → ℚ
  backprop_error : ℚ
  backprop_error_average : ℚ
  backprop_error_percent : ℚ
  learning_rate : ℚ
  noise : ℚ
  dropout_percent : ℚ
  random_seed : ℕ
  itterations : ℕ

/-- `autocoder_set_input` (`src/autocoder.c` lines 424-427). -/
def autocoder_set_input (a : AcState) (index : ℕ) (value : ℚ) : AcState :=
  { a with inputs := arraySet a.inputs index value }

/-- `autocoder_get_hidden` (`src/autocoder.c` lines 446-449). -/
def autocoder_get_hidden (a : AcState) (index : ℕ) : ℚ :=
  a.hiddens index

/-- The weighted sum `bias[h] + Σ_i weights[h*no_of_inputs+i] * inputs[i]`
computed by `autocoder_encode` (`src/autocoder.c` lines 140-147).  The C loop
adds the terms for `i` descending; rational addition is exact and commutative,
so the ascending sum below denotes the same value. -/
def autocoder_encode_adder (a : AcState) (h : ℕ) : ℚ :=
  a.bias h + ((List.range a.no_of_inputs).map
    (fun i => a.weights (h * a.no_of_inputs + i) * a.inputs i)).sum

/-- One hidden unit of `autocoder_encode` (`src/autocoder.c` lines 130-157),
threading the state (seed, hiddens on dropout) and the destination array.
`off` is the base offset of the destination pointer within the destination
buffer.  On dropout the C code writes `AUTOCODER_DROPPED_OUT` to the struct's
own `hiddens[h]` and leaves the destination slot untouched. -/
def autocoder_encode_unit (af : ℚ → ℚ) (rn : ℕ → ℕ) (use_dropouts : Bool)
    (st : AcState × (ℕ → ℚ)) (off h : ℕ) : AcState × (ℕ → ℚ) :=
  let a := st.1
  if use_dropouts ∧
      ((rn a.random_seed % 10000 : ℕ) : ℚ) < a.dropout_percent * 100 then
    ({ a with random_seed := rn a.random_seed,
              hiddens := arraySet a.hiddens h (-9999) }, st.2)
  else
    let a1 := if use_dropouts then { a with random_seed := rn a.random_seed } else a
    let adder := autocoder_encode_adder a1 h
    if a1.noise > 0 then
      let a2 := { a1 with random_seed := rn a1.random_seed }
      let adder2 := (1 - a1.noise) * adder
        + a1.noise * ((rn a1.random_seed % 10000 : ℕ) : ℚ) / 10000
      (a2, arraySet st.2 (off + h) (af adder2))
    else
      (a1, arraySet st.2 (off + h) (af adder))

/-- `autocoder_encode` writing to an external buffer (as called by
`features_convolve` / `features_convolve_image`, `src/deeplearn_features.c`
lines 611 and 831): `COUNTDOWN(h, no_of_hiddens)` over the hidden units. -/
def autocoder_encode_ext (af : ℚ → ℚ) (rn : ℕ → ℕ) (a : AcState) (dest : ℕ → ℚ)
    (off : ℕ) (use_dropouts : Bool) : AcState × (ℕ → ℚ) :=
  (List.range a.no_of_hiddens).reverse.foldl
    (fun st h => autocoder_encode_unit af rn use_dropouts st off h) (a, dest)

/-- `autocoder_encode` writing to the autocoder's own `hiddens` array (the
aliased call `autocoder_encode(autocoder, autocoder->hiddens, 1)` in
`autocoder_feed_forward`, `src/autocoder.c` line 200): the dropout write and
the activation write land in the same array, so the loop is transcribed with
the single aliased array. -/
def autocoder_encode_self (af : ℚ → ℚ) (rn : ℕ → ℕ) (a : AcState)
    (use_dropouts : Bool) : AcState :=
  let st := (List.range a.no_of_hiddens).reverse.foldl
    (fun (st : ℕ × (ℕ → ℚ)) h =>
      let seed := st.1
      if use_dropouts ∧ ((rn seed % 10000 : ℕ) : ℚ) < a.dropout_percent * 100 then
        (rn seed, arraySet st.2 h (-9999))
      else
        let s1 := if use_dropouts then rn seed else seed
        let adder := a.bias h + ((List.range a.no_of_inputs).map
          (fun i => a.weights (h * a.no_of_inputs + i) * a.inputs i)).sum
        if a.noise > 0 then
          (rn s1, arraySet st.2 h
            (af ((1 - a.noise) * adder + a.noise * ((rn s1 % 10000 : ℕ) : ℚ) / 10000)))
        else
          (s1, arraySet st.2 h (af adder)))
    (a.random_seed, a.hiddens)
  { a with random_seed := st.1, hiddens := st.2 }

/-- `autocoder_decode` (`src/autocoder.c` lines 165-192): for each input index
`i` (descending), the weighted sum over the non-dropped hidden units of
`weights[h*no_of_inputs+i] * hiddens[h]` goes through the activation function
into `decoded[i]`.  The dropped-out sentinel is `-9999`.  As in the pipeline
(`autocoder_feed_forward`), `decoded` aliases nothing read by the loop, so the
destination is threaded as a separate array (commutative exact sums replace
the descending accumulation). -/
def autocoder_decode (af : ℚ → ℚ) (rn : ℕ → ℕ) (a : AcState) (dest : ℕ → ℚ) :
    AcState × (ℕ → ℚ) :=
  let st := (List.range a.no_of_inputs).reverse.foldl
    (fun (st : ℕ × (ℕ → ℚ)) i =>
      let adder := ((List.range a.no_of_hiddens).map
        (fun h => if a.hiddens h = -9999 then 0
          else a.weights (h * a.no_of_inputs + i) * a.hiddens h)).sum
      if a.noise > 0 then
        (rn st.1, arraySet st.2 i
          (af ((1 - a.noise) * adder + a.noise * ((rn st.1 % 10000 : ℕ) : ℚ) / 10000)))
      else
        (st.1, arraySet st.2 i (af adder)))
    (a.random_seed, dest)
  ({ a with random_seed := st.1 }, st.2)

/-- `autocoder_feed_forward` (`src/autocoder.c` lines 198-202): encode into the
own hidden array (with dropouts), then decode into the own output array. -/
def autocoder_feed_forward (af : ℚ → ℚ) (rn : ℕ → ℕ) (a : AcState) : AcState :=
  let a1 := autocoder_encode_self af rn a true
  let d := autocoder_decode af rn a1 a1.outputs
  { d.1 with outputs := d.2 }

/-- The C `fabs`, written as an executable conditional on the rational
embedding of the floats. -/
def qabs (x : ℚ) : ℚ :=
  if x < 0 then -x else x

/-- `autocoder_backprop` (`src/autocoder.c` lines 208-255): clears `bperr`,
accumulates `backprop_error = Σ_i |inputs[i] - outputs[i]|` and, per non-dropped
hidden unit, `bperr[h] = Σ_i (inputs[i]-outputs[i]) * outputs[i]*(1-outputs[i])
* weights[h*n+i]`; scales the error percentage by `100 / (0.6 * no_of_inputs)`;
folds the error into the running averages (0.999/0.001, first sample when the
average still holds the `AUTOCODER_UNKNOWN` sentinel -9999) and increments the
iteration counter up to `UINT_MAX`.  The C loops accumulate descending over
`i`; rational addition is exact, so the sums below denote the same values. -/
def autocoder_backprop (a : AcState) : AcState :=
  let n := a.no_of_inputs
  let bpe := ((List.range n).map (fun i => qabs (a.inputs i - a.outputs i))).sum
  let errorPercent := bpe * 100 / ((3 / 5 : ℚ) * n)
  let bperr2 : ℕ → ℚ := fun h =>
    if h < a.no_of_hiddens then
      (if a.hiddens h = -9999 then 0
        else ((List.range n).map (fun i =>
          (a.inputs i - a.outputs i) * (a.outputs i * (1 - a.outputs i))
            * a.weights (h * n + i))).sum)
    else a.bperr h
  let avg := if a.backprop_error_average = -9999 then bpe
    else a.backprop_error_average * (999 / 1000) + bpe * (1 / 1000)
  let pct := if a.backprop_error_average = -9999 then errorPercent
    else a.backprop_error_percent * (999 / 1000) + errorPercent * (1 / 1000)
  { a with bperr := bperr2, backprop_error := bpe,
           backprop_error_average := avg, backprop_error_percent := pct,
           itterations := if a.itterations < 4294967295 then a.itterations + 1
             else a.itterations }

/-- `autocoder_learn` (`src/autocoder.c` lines 261-303).  The first pass
(lines 264-280) updates, for every non-dropped hidden unit `h` and input `i`,
the momentum term and weight at index `h*n+i` using the output-side gradient;
the second pass (lines 283-302) updates bias and the same weight indices using
the hidden-side gradient `hiddens[h]*(1-hiddens[h]) * bperr[h]`.  Each pass
touches every index exactly once, so the sequential C loops are transcribed as
two successive pointwise updates (`h = idx / n`, `i = idx % n`). -/
def autocoder_learn (a : AcState) : AcState :=
  let n := a.no_of_inputs
  let hi := a.no_of_hiddens
  let e1 := a.learning_rate / (1 + (hi : ℚ))
  let lwc1 : ℕ → ℚ := fun idx =>
    if idx < hi * n ∧ ¬ a.hiddens (idx / n) = -9999 then
      e1 * (a.last_weight_change idx + 1) *
        ((a.outputs (idx % n) * (1 - a.outputs (idx % n)))
          * (a.inputs (idx % n) - a.outputs (idx % n))) * a.hiddens (idx / n)
    else a.last_weight_change idx
  let w1 : ℕ → ℚ := fun idx =>
    if idx < hi * n ∧ ¬ a.hiddens (idx / n) = -9999 then a.weights idx + lwc1 idx
    else a.weights idx
  let e2 := a.learning_rate / (1 + (n : ℚ))
  let grad2 : ℕ → ℚ := fun h => (a.hiddens h * (1 - a.hiddens h)) * a.bperr h
  let lbc2 : ℕ → ℚ := fun h =>
    if h < hi ∧ ¬ a.hiddens h = -9999 then
      e2 * (a.last_bias_change h + 1) * grad2 h
    else a.last_bias_change h
  let bias2 : ℕ → ℚ := fun h =>
    if h < hi ∧ ¬ a.hiddens h = -9999 then a.bias h + lbc2 h else a.bias h
  let lwc2 : ℕ → ℚ := fun idx =>
    if idx < hi * n ∧ ¬ a.hiddens (idx / n) = -9999 then
      e2 * (lwc1 idx + 1) * grad2 (idx / n) * a.inputs (idx % n)
    else lwc1 idx
  let w2 : ℕ → ℚ := fun idx =>
    if idx < hi * n ∧ ¬ a.hiddens (idx / n) = -9999 then w1 idx + lwc2 idx
    else w1 idx
  { a with last_weight_change := lwc2, weights := w2,
           last_bias_change := lbc2, bias := bias2 }

/-- `autocoder_update` (`src/autocoder.c` lines 466-471): feed forward,
backprop, learn. -/
def autocoder_update (af : ℚ → ℚ) (rn : ℕ → ℕ) (a : AcState) : AcState :=
  autocoder_learn (autocoder_backprop (autocoder_feed_forward af rn a))

/-! ### Patch scanning (`src/deeplearn_features.c` lines 165-273) -/

/-- `PIXEL_TO_FLOAT` (`globals.h` line 61): `0.25 + p/(2*255)`. -/
def pixel_to_float (p : ℕ) : ℚ :=
  1 / 4 + (p : ℚ) / 510

/-- One store `autocoder_set_input(feature_autocoder, index_feature_input++, v)`
of the scan loops (`src/deeplearn_features.c` lines 180-182 and 262-264). -/
def scan_step (v : ℚ) (st : ℕ × AcState) : ℕ × AcState :=
  (st.1 + 1, autocoder_set_input st.2 st.1 v)

/-- The scan loop shared by `scan_image_patch` (lines 165-191) and
`scan_patch` (lines 244-273): for each pixel of the box `[ty,b_y) × [tx,bx)`
(rows outer, columns inner, channels descending), store the source value at
buffer index `((y*width)+x)*depth + d` into consecutive autocoder inputs.
`valf` maps the flat buffer index to the stored value (identity for the float
source, `PIXEL_TO_FLOAT` of the byte for the image source).  Buffer indices
are non-negative whenever the box is in bounds; `Int.toNat` totalises the
embedding outside that domain. -/
def scan_patch_core (valf : ℕ → ℚ) (width depth : ℕ) (tx ty bx b_y : ℤ)
    (a : AcState) : ℕ × AcState :=
  (List.range (b_y - ty).toNat).foldl (fun st (yy : ℕ) =>
      (List.range (bx - tx).toNat).foldl (fun (st2 : ℕ × AcState) (xx : ℕ) =>
        (List.range depth).reverse.foldl
          (fun st3 d =>
            scan_step (valf ((((ty + yy) * width + (tx + xx)) * depth).toNat + d)) st3)
          st2)
        st)
    ((0 : ℕ), a)

/-- `scan_patch` (`src/deeplearn_features.c` lines 244-273): scans the box and
fails with -1 when the running input index does not equal `no_of_inputs`. -/
def scan_patch (inputs_floats : ℕ → ℚ) (inputs_width inputs_depth : ℕ)
    (tx ty bx b_y : ℤ) (a : AcState) : ℤ × AcState :=
  let st := scan_patch_core inputs_floats inputs_width inputs_depth tx ty bx b_y a
  if st.1 ≠ a.no_of_inputs then (-1, st.2) else (0, st.2)

/-- `scan_image_patch` (`src/deeplearn_features.c` lines 165-191): as
`scan_patch` but from an 8-bit image, each byte mapped through
`PIXEL_TO_FLOAT`. -/
def scan_image_patch (img : ℕ → ℕ) (img_width img_depth : ℕ)
    (tx ty bx b_y : ℤ) (a : AcState) : ℤ × AcState :=
  let st := scan_patch_core (fun k => pixel_to_float (img k)) img_width img_depth tx ty bx b_y a
  if st.1 ≠ a.no_of_inputs then (-1, st.2) else (0, st.2)

/-! ### Feature learning over the grid (`src/deeplearn_features.c` lines 336-465) -/

/-- The grid cells in the order visited by `COUNTDOWN(fy, samples_down)
{ COUNTDOWN(fx, samples_across) { ... } }`. -/
def gridCells (samples_across samples_down : ℕ) : List (ℕ × ℕ) :=
  (List.range samples_down).reverse.flatMap
    (fun fy => (List.range samples_across).reverse.map (fun fx => (fx, fy)))

/-- The per-cell loop shared by `features_learn_from_image` (lines 367-389) and
`features_learn` (lines 437-460), abstracted over the scan function of the
respective source kind: resolve the patch box (skip the cell on a non-zero
status), scan it into the autocoder, fail with -4 if the scan fails, otherwise
run `autocoder_update` and accumulate `BPerror`. -/
def features_learn_cells (samples_across samples_down : ℕ) (patch_radius : ℤ)
    (width height : ℕ) (scanf : ℤ → ℤ → ℤ → ℤ → AcState → ℤ × AcState)
    (upd : AcState → AcState) :
    List (ℕ × ℕ) → AcState → ℚ → ℤ × AcState × ℚ
  | [], a, err => (0, a, err)
  | c :: rest, a, err =>
    let p := features_patch_coords c.1 c.2 samples_across samples_down patch_radius width height
    if p.status ≠ 0 then
      features_learn_cells samples_across samples_down patch_radius width height scanf upd rest a err
    else
      let s := scanf p.tx p.ty p.bx p.b_y a
      if s.1 ≠ 0 then (-4, s.2, err)
      else
        let a2 := upd s.2
        features_learn_cells samples_across samples_down patch_radius width height scanf upd
          rest a2 (err + a2.backprop_error)

/-- `features_learn` (`src/deeplearn_features.c` lines 411-465): guards
(grid-size and patch-size mismatch), the per-cell learning loop, and the final
division of the accumulated error by `samples_across * samples_down`.  The
result is (status, autocoder, `*BPerror`). -/
def features_learn (af : ℚ → ℚ) (rn : ℕ → ℕ) (samples_across samples_down : ℕ)
    (patch_radius : ℤ) (inputs_width inputs_height inputs_depth : ℕ)
    (inputs_floats : ℕ → ℚ) (layer0_units : ℕ) (a : AcState) : ℤ × AcState × ℚ :=
  if samples_across * samples_down * a.no_of_hiddens ≠ layer0_units then (-1, a, 0)
  else if (a.no_of_inputs : ℤ) ≠ patch_radius * patch_radius * 4 * inputs_depth then (-2, a, 0)
  else
    let o := features_learn_cells samples_across samples_down patch_radius
      inputs_width inputs_height (scan_patch inputs_floats inputs_width inputs_depth)
      (autocoder_update af rn) (gridCells samples_across samples_down) a 0
    if o.1 = 0 then (0, o.2.1, o.2.2 / ((samples_across * samples_down : ℕ) : ℚ)) else o

/-- `features_learn_from_image` (`src/deeplearn_features.c` lines 336-394):
byte-image variant of `features_learn`. -/
def features_learn_from_image (af : ℚ → ℚ) (rn : ℕ → ℕ)
    (samples_across samples_down : ℕ) (patch_radius : ℤ)
    (img_width img_height img_depth : ℕ) (img : ℕ → ℕ)
    (layer0_units : ℕ) (a : AcState) : ℤ × AcState × ℚ :=
  if samples_across * samples_down * a.no_of_hiddens ≠ layer0_units then (-1, a, 0)
  else if (a.no_of_inputs : ℤ) ≠ patch_radius * patch_radius * 4 * img_depth then (-2, a, 0)
  else
    let o := features_learn_cells samples_across samples_down patch_radius
      img_width img_height (scan_image_patch img img_width img_depth)
      (autocoder_update af rn) (gridCells samples_across samples_down) a 0
    if o.1 = 0 then (0, o.2.1, o.2.2 / ((samples_across * samples_down : ℕ) : ℚ)) else o

/-- Whether the patch of grid cell `c` is in bounds. -/
def inBoundsCell (samples_across samples_down : ℕ) (patch_radius : ℤ)
    (width height : ℕ) (c : ℕ × ℕ) : Bool :=
  (features_patch_coords c.1 c.2 samples_across samples_down patch_radius width height).status = 0

/-- Reference loop for claim C2, following the words of the spec (§4.2
`learn_from_patches`): visit the cells of the given list, scan each patch into
the autocoder, run one online update step, and accumulate its scalar error.
Used on the list of in-bounds cells only. -/
def features_learn_ref_cells (samples_across samples_down : ℕ) (patch_radius : ℤ)
    (width height : ℕ) (scanf : ℤ → ℤ → ℤ → ℤ → AcState → ℤ × AcState)
    (upd : AcState → AcState) :
    List (ℕ × ℕ) → AcState → ℚ → AcState × ℚ
  | [], a, err => (a, err)
  | c :: rest, a, err =>
    let p := features_patch_coords c.1 c.2 samples_across samples_down patch_radius width height
    let s := scanf p.tx p.ty p.bx p.b_y a
    let a2 := upd s.2
    features_learn_ref_cells samples_across samples_down patch_radius width height scanf upd
      rest a2 (err + a2.backprop_error)

/-- Reference semantics for claim C2, following the words of the spec: one
online update per in-bounds cell, out-of-bounds cells skipped.  Returns (final
autocoder, sum of the per-patch errors over the in-bounds cells, number of
in-bounds cells); the mean claimed by the spec is the sum divided by the
count. -/
def features_learn_inbounds (samples_across samples_down : ℕ) (patch_radius : ℤ)
    (width height : ℕ) (scanf : ℤ → ℤ → ℤ → ℤ → AcState → ℤ × AcState)
    (upd : AcState → AcState) (a : AcState) : AcState × ℚ × ℕ :=
  let cells := (gridCells samples_across samples_down).filter
    (inBoundsCell samples_across samples_down patch_radius width height)
  let o := features_learn_ref_cells samples_across samples_down patch_radius width height
    scanf upd cells a 0
  (o.1, o.2, cells.length)

/-! ### Convolution over the grid (`src/deeplearn_features.c` lines 556-616 and 783-836) -/

/-- The zero fill `COUNTDOWN(f, no_of_learned_features) layer[idx+f] = 0`
performed for an out-of-bounds cell (`src/deeplearn_features.c` lines 597-598
and 819-820); the descending loop writes each slot once, transcribed
pointwise. -/
def zeroSlice (L : ℕ → ℚ) (idx count : ℕ) : ℕ → ℚ :=
  fun k => if idx ≤ k ∧ k < idx + count then 0 else L k

/-- The per-cell loop shared by `features_convolve_image` (lines 582-614) and
`features_convolve` (lines 808-834), abstracted over the scan function of the
source kind and over the encode step: the destination slice of each cell
starts at `(fy*samples_across+fx) * no_of_learned_features`; an out-of-bounds
cell has its slice zero-filled; an in-bounds cell is scanned (failing with -4
on a scan failure) and encoded straight into its slice. -/
def features_convolve_cells (samples_across features samples_down : ℕ)
    (patch_radius : ℤ) (width height : ℕ)
    (scanf : ℤ → ℤ → ℤ → ℤ → AcState → ℤ × AcState)
    (encf : AcState → (ℕ → ℚ) → ℕ → AcState × (ℕ → ℚ)) :
    List (ℕ × ℕ) → AcState → (ℕ → ℚ) → ℤ × AcState × (ℕ → ℚ)
  | [], a, L => (0, a, L)
  | c :: rest, a, L =>
    let idx := (c.2 * samples_across + c.1) * features
    let p := features_patch_coords c.1 c.2 samples_across samples_down patch_radius width height
    if p.status ≠ 0 then
      features_convolve_cells samples_across features samples_down patch_radius width height
        scanf encf rest a (zeroSlice L idx features)
    else
      let s := scanf p.tx p.ty p.bx p.b_y a
      if s.1 ≠ 0 then (-4, s.2, L)
      else
        let e := encf s.2 L idx
        features_convolve_cells samples_across features samples_down patch_radius width height
          scanf encf rest e.1 e.2

/-- `features_convolve` (`src/deeplearn_features.c` lines 783-836): guards,
then the per-cell convolution loop over the float source `layer0`, writing
feature responses (or zero fill) into `layer1`. -/
def features_convolve (af : ℚ → ℚ) (rn : ℕ → ℕ) (samples_across samples_down : ℕ)
    (patch_radius : ℤ) (floats_width floats_height floats_depth : ℕ)
    (layer0 : ℕ → ℚ) (layer1_units : ℕ) (layer1 : ℕ → ℚ) (a : AcState)
    (use_dropouts : Bool) : ℤ × AcState × (ℕ → ℚ) :=
  if samples_across * samples_down * a.no_of_hiddens ≠ layer1_units then (-1, a, layer1)
  else if (a.no_of_inputs : ℤ) ≠ patch_radius * patch_radius * 4 * floats_depth then (-2, a, layer1)
  else
    features_convolve_cells samples_across a.no_of_hiddens samples_down patch_radius
      floats_width floats_height (scan_patch layer0 floats_width floats_depth)
      (fun a2 L idx => autocoder_encode_ext af rn a2 L idx use_dropouts)
      (gridCells samples_across samples_down) a layer1

/-- `features_convolve_image` (`src/deeplearn_features.c` lines 556-616):
byte-image variant of `features_convolve`. -/
def features_convolve_image (af : ℚ → ℚ) (rn : ℕ → ℕ) (samples_across samples_down : ℕ)
    (patch_radius : ℤ) (img_width img_height img_depth : ℕ)
    (img : ℕ → ℕ) (layer0_units : ℕ) (layer0 : ℕ → ℚ) (a : AcState)
    (use_dropouts : Bool) : ℤ × AcState × (ℕ → ℚ) :=
  if samples_across * samples_down * a.no_of_hiddens ≠ layer0_units then (-1, a, layer0)
  else if (a.no_of_inputs : ℤ) ≠ patch_radius * patch_radius * 4 * img_depth then (-2, a, layer0)
  else
    features_convolve_cells samples_across a.no_of_hiddens samples_down patch_radius
      img_width img_height (scan_image_patch img img_width img_depth)
      (fun a2 L idx => autocoder_encode_ext af rn a2 L idx use_dropouts)
      (gridCells samples_across samples_down) a layer0

/-! ### Convolution pipeline state (`src/deeplearn_conv.c`)

The structure `deeplearn_conv` matching `src/deeplearn_conv.c` (its header is
not among the sources; the fields below are the ones the .c file accesses).
The convolution and pooling buffers of each layer are caller-invisible scratch
written by `conv_img`; they are not needed by any claim and are omitted from
the layer record.  The plot-filename strings are likewise omitted. -/

/-- One entry of `deeplearn_conv.layer[]`. -/
structure ConvLayerState where
  units_across : ℕ
  units_down : ℕ
  pooling_factor : ℕ
  autocoder : AcState

/-- The `deeplearn_conv` record (scalar fields of `src/deeplearn_conv.c`). -/
structure ConvState where
  no_of_layers : ℕ
  current_layer : ℕ
  training_complete : ℕ
  itterations : ℕ
  enable_learning : ℕ
  BPerror : ℚ
  error_threshold : ℕ → ℚ
  history : ℕ → ℚ
  history_index : ℕ
  history_ctr : ℕ
  history_step : ℕ
  history_plot_interval : ℕ
  reduction_factor : ℕ
  pooling_factor : ℕ
  random_seed : ℕ
  inputs_across : ℕ
  inputs_down : ℕ
  inputs_depth : ℕ
  max_features : ℕ
  layers : List ConvLayerState

/-- All-zero autocoder, used as the out-of-range fallback of
`conv_layer_get` (a C access past the populated layers would read
indeterminate memory; on the states considered here it never happens). -/
def acZero : AcState where
  no_of_inputs := 0
  no_of_hiddens := 0
  inputs := fun _ => 0
  hiddens := fun _ => 0
  bias := fun _ => 0
  weights := fun _ => 0
  last_weight_change := fun _ => 0
  outputs := fun _ => 0
  bperr := fun _ => 0
  last_bias_change := fun _ => 0
  backprop_error := 0
  backprop_error_average := 0
  backprop_error_percent := 0
  learning_rate := 0
  noise := 0
  dropout_percent := 0
  random_seed := 0
  itterations := 0

/-- Access `conv->layer[i]`. -/
def conv_layer_get (c : ConvState) (i : ℕ) : ConvLayerState :=
  c.layers.getD i ⟨0, 0, 0, acZero⟩

/-- `get_max_layer` (`src/deeplearn_conv.c` lines 454-460). -/
def get_max_layer (c : ConvState) : ℕ :=
  if c.training_complete = 0 then c.current_layer + 1 else c.no_of_layers

/-- `conv_enable_learning` (`src/deeplearn_conv.c` lines 468-484). -/
def conv_enable_learning (layer_index : ℕ) (c : ConvState) : ConvState :=
  if c.training_complete = 0 then
    { c with enable_learning := if layer_index = get_max_layer c - 1 then 1 else 0 }
  else
    { c with enable_learning := 0 }

/-- `conv_update_history` (`src/deeplearn_conv.c` lines 179-214):
`DEEPLEARN_HISTORY_SIZE = 1024`, `DEEPLEARN_UNKNOWN_ERROR = 9999`
(`globals.h`).  When the buffer fills, the in-place loop
`history[i/2] = history[i]` halves the index and doubles the step. -/
def conv_update_history (c : ConvState) : ConvState :=
  if c.history_step = 0 then c
  else
    let ctr := c.history_ctr + 1
    if ctr ≥ c.history_step then
      let ev := if c.BPerror = 9999 then 0 else c.BPerror
      let hist := arraySet c.history c.history_index ev
      let idx := c.history_index + 1
      if idx ≥ 1024 then
        { c with history := (List.range idx).foldl (fun hh i => arraySet hh (i / 2) (hh i)) hist,
                 history_index := idx / 2, history_ctr := 0,
                 history_step := c.history_step * 2 }
      else
        { c with history := hist, history_index := idx, history_ctr := 0 }
    else
      { c with history_ctr := ctr }

/-- `conv_update_training_error` (`src/deeplearn_conv.c` lines 493-533):
no-op once training is complete or below the currently-trained layer; first
sample replaces the `-1` sentinel; otherwise fold the error into the running
average (0.99/0.01), record history, bump the iteration counter (capped at
`UINT_MAX`), and on crossing the threshold reset the running error and advance
`current_layer`, setting `training_complete` on reaching `no_of_layers`. -/
def conv_update_training_error (layer_index : ℕ) (e : ℚ) (c : ConvState) : ConvState :=
  if c.training_complete ≠ 0 then c
  else if layer_index + 1 < get_max_layer c then c
  else if c.BPerror < 0 then { c with BPerror := e }
  else
    let c1 := conv_update_history { c with BPerror := c.BPerror * (99 / 100) + e * (1 / 100) }
    let c2 := { c1 with itterations := if c1.itterations < 4294967295 then c1.itterations + 1
                  else c1.itterations }
    if c2.BPerror < c2.error_threshold layer_index then
      let c3 := { c2 with BPerror := -1, current_layer := c2.current_layer + 1 }
      if c3.no_of_layers ≤ c3.current_layer then { c3 with training_complete := 1 } else c3
    else c2

/-- The layer loop of `conv_img` (`src/deeplearn_conv.c` lines 602-638).  The
numeric per-layer learning error produced by `conv_img_initial` /
`conv_subsequent` is determined by the image and the autocoders; for the
training-scheduler claims it is abstracted as the ambient sequence `errs`
(`.error rv` modelling a non-zero return, which aborts the loop), and
`poolok i` records whether the pooling call for layer `i` returns zero (a
failure aborts with -6).  `i` is the loop counter, `rem` the remaining
iterations of the `COUNTUP(i, max_layer)` loop. -/
def conv_img_loop (errs : ℕ → Except ℤ ℚ) (poolok : ℕ → Bool) :
    ℕ → ℕ → ConvState → ℤ × ConvState
  | _, 0, c => (0, c)
  | i, rem + 1, c =>
    let c1 := conv_enable_learning i c
    match errs i with
    | Except.error rv => (rv, c1)
    | Except.ok e =>
      let c2 := conv_update_training_error i e c1
      if poolok i then conv_img_loop errs poolok (i + 1) rem c2 else (-6, c2)

/-- `conv_img` (`src/deeplearn_conv.c` lines 602-638): `max_layer` is read once
at entry, then the layer loop runs. -/
def conv_img (errs : ℕ → Except ℤ ℚ) (poolok : ℕ → Bool) (c : ConvState) :
    ℤ × ConvState :=
  conv_img_loop errs poolok 0 (get_max_layer c) c

/-- The training-scheduler invariant of the pipeline: `current_layer` lies in
`[0, no_of_layers]` and `training_complete` is set exactly when it has reached
`no_of_layers`. -/
def ConvInv (c : ConvState) : Prop :=
  c.current_layer ≤ c.no_of_layers ∧ (c.training_complete ≠ 0 ↔ c.current_layer = c.no_of_layers)

instance (c : ConvState) : Decidable (ConvInv c) := by
  unfold ConvInv
  infer_instance

/-! ### Pipeline construction (`src/deeplearn_conv.c` lines 48-147,
`src/autocoder.c` lines 40-103)

`rand_num` and `rand_initial_weight` live in `deeplearn_random.c`, which is
not among the sources.  Modelled from the spec: a "seeded counter-style
generator" — `rn : ℕ → ℕ` advances a seed, and
`riw : ℕ → ℕ → ℚ × ℚ`-style parameter `riw seed range = (value, new seed)`
models `rand_initial_weight(&seed, range)`. -/

/-- `autocoder_init` (`src/autocoder.c` lines 40-103): sizes and clears the
buffers, sets the scalar fields (`learning_rate = 0.2`,
`dropout_percent = 0.01`, error sentinels `-9999`), then draws the biases and
weights from `rand_initial_weight`, threading the autocoder's own seed, in
`COUNTDOWN` order over hidden units and inputs.  `backprop_error_percent` is
left untouched by the C code (indeterminate); it is modelled as 0. -/
def autocoder_init (riw : ℕ → ℕ → ℚ × ℕ) (no_of_inputs no_of_hiddens seed : ℕ) :
    AcState :=
  let st := (List.range no_of_hiddens).reverse.foldl
    (fun (st : ℕ × (ℕ → ℚ) × (ℕ → ℚ)) h =>
      let b := riw st.1 2
      let inner := (List.range no_of_inputs).reverse.foldl
        (fun (st2 : ℕ × (ℕ → ℚ)) i =>
          let wv := riw st2.1 no_of_inputs
          (wv.2, arraySet st2.2 (h * no_of_inputs + i) wv.1))
        (b.2, st.2.2)
      (inner.1, arraySet st.2.1 h b.1, inner.2))
    (seed, (fun _ => 0), (fun _ => 0))
  { no_of_inputs := no_of_inputs
    no_of_hiddens := no_of_hiddens
    inputs := fun _ => 0
    hiddens := fun _ => 0
    bias := st.2.1
    weights := st.2.2
    last_weight_change := fun _ => 0
    outputs := fun _ => 0
    bperr := fun _ => 0
    last_bias_change := fun _ => 0
    backprop_error := -9999
    backprop_error_average := -9999
    backprop_error_percent := 0
    learning_rate := 1 / 5
    noise := 0
    dropout_percent := 1 / 100
    random_seed := st.1
    itterations := 0 }

/-- The layer-construction loop of `conv_init` (`src/deeplearn_conv.c` lines
93-145).  Arguments after the fixed parameters: layer index `i`, remaining
layer count, running `across`/`down` (the values entering the division by
`reduction_factor`), the previous layer's `units_across` (used by
`conv_patch_radius` for `i > 0`), and the caller's random seed.  Returns the
constructed layers and the final value of the caller's seed. -/
def conv_init_loop (rn : ℕ → ℕ) (riw : ℕ → ℕ → ℚ × ℕ)
    (inputs_across inputs_depth max_features no_of_layers reduction_factor pooling_factor : ℕ) :
    ℕ → ℕ → ℕ → ℕ → ℕ → ℕ → List ConvLayerState × ℕ
  | _, 0, _, _, _, seed => ([], seed)
  | i, rem + 1, across, down, prev_across, seed =>
    let a := clamp4 (across / reduction_factor)
    let d := clamp4 (down / reduction_factor)
    let seed2 := rn seed
    let depth := conv_init_ac_depth inputs_depth max_features no_of_layers i
    let radius0 := if i = 0 then inputs_across / a
      else prev_across / pooling_factor / a
    let radius := if radius0 < 2 then 2 else radius0
    let ac := autocoder_init riw (radius * radius * 4 * depth)
      (conv_layer_features max_features no_of_layers i) seed2
    let rest := conv_init_loop rn riw inputs_across inputs_depth max_features no_of_layers
      reduction_factor pooling_factor (i + 1) rem
      (clamp4 (a / pooling_factor)) (clamp4 (d / pooling_factor)) a seed2
    (⟨a, d, pooling_factor, ac⟩ :: rest.1, rest.2)

/-- `conv_init` (`src/deeplearn_conv.c` lines 48-147): fails when
`no_of_layers >= PREPROCESS_MAX_LAYERS` (100); otherwise advances the caller's
random seed, resets all training-progress and history fields
(`current_layer = 0`, `training_complete = 0`, `itterations = 0`,
`BPerror = -1`, `enable_learning = 0`), copies `no_of_layers` thresholds, and
builds the layers.  `c` is the caller-supplied struct; fields `conv_init` does
not write keep their prior contents.  Allocation failure (malloc) is an
external condition and is not modelled.  Returns the new state together with
the final value of the caller's seed variable (which `conv_load` aliases with
`conv->random_seed`). -/
def conv_init (rn : ℕ → ℕ) (riw : ℕ → ℕ → ℚ × ℕ)
    (no_of_layers inputs_across inputs_down inputs_depth max_features
      reduction_factor pooling_factor : ℕ)
    (error_threshold : ℕ → ℚ) (random_seed : ℕ) (c : ConvState) :
    Option (ConvState × ℕ) :=
  if no_of_layers ≥ 100 then none
  else
    let seed1 := rn random_seed
    let lay := conv_init_loop rn riw inputs_across inputs_depth max_features no_of_layers
      reduction_factor pooling_factor 0 no_of_layers inputs_across inputs_down 0 seed1
    some ({ c with
      random_seed := seed1
      reduction_factor := reduction_factor
      pooling_factor := pooling_factor
      history_ctr := 0
      history_index := 0
      history_step := 1
      history_plot_interval := 1
      current_layer := 0
      training_complete := 0
      itterations := 0
      BPerror := -1
      error_threshold := fun i => if i < no_of_layers then error_threshold i else c.error_threshold i
      enable_learning := 0
      no_of_layers := no_of_layers
      inputs_across := inputs_across
      inputs_down := inputs_down
      inputs_depth := inputs_depth
      max_features := max_features
      layers := lay.1 }, lay.2)

/-! ### Persistence (`src/deeplearn_conv.c` lines 725-863, `src/autocoder.c`
lines 311-416)

Modelled from the spec: the serialisation macros `INTWRITE`/`FLOATWRITE`/
`UINTWRITE`/`BYTEWRITE` and their read counterparts are defined in a header
that is not among the sources; per the persistence contract (spec §6) each
writes the raw bytes of its argument field and each read consumes the same
number of bytes, so the stream is modelled as a list of slots tagged by the
C type of the field object written (`FLOATWRITE(conv->reduction_factor)` in
`conv_save` takes the address of an `int` field and hence emits an int slot,
which `INTREAD` in `conv_load` consumes).  A read of a mismatched slot kind
has no counterpart in the byte-level reality of matching widths and is mapped
to a load failure; it never occurs on streams produced by `conv_save`. -/

/-- One serialised slot. -/
inductive SVal where
  | ival (z : ℤ)
  | uval (n : ℕ)
  | bval (n : ℕ)
  | fval (q : ℚ)
deriving DecidableEq, Repr

/-- Consume an int slot. -/
def readI : List SVal → Option (ℤ × List SVal)
  | SVal.ival z :: r => some (z, r)
  | _ => none

/-- Consume an unsigned-int slot. -/
def readU : List SVal → Option (ℕ × List SVal)
  | SVal.uval n :: r => some (n, r)
  | _ => none

/-- Consume a byte slot. -/
def readB : List SVal → Option (ℕ × List SVal)
  | SVal.bval n :: r => some (n, r)
  | _ => none

/-- Consume a float slot. -/
def readF : List SVal → Option (ℚ × List SVal)
  | SVal.fval q :: r => some (q, r)
  | _ => none

/-- Consume `count` float slots into positions `start..start+count-1` of `dst`
(`FLOATREADARRAY`). -/
def readFArrAux (start count : ℕ) (dst : ℕ → ℚ) (s : List SVal) :
    Option ((ℕ → ℚ) × List SVal) :=
  match count, s with
  | 0, s => some (dst, s)
  | k + 1, SVal.fval q :: r => readFArrAux (start + 1) k (arraySet dst start q) r
  | _ + 1, _ => none

/-- `FLOATREADARRAY(dst, count)` starting at position 0. -/
def readFArr (count : ℕ) (dst : ℕ → ℚ) (s : List SVal) :
    Option ((ℕ → ℚ) × List SVal) :=
  readFArrAux 0 count dst s

/-- `autocoder_save` (`src/autocoder.c` lines 311-350): sizes, seed, dropout
percentage, weights, momentum, biases, bias momentum, learning rate, noise,
iteration count. -/
def autocoder_save (a : AcState) : List SVal :=
  [SVal.ival a.no_of_inputs, SVal.ival a.no_of_hiddens, SVal.uval a.random_seed,
   SVal.fval a.dropout_percent]
  ++ (List.range (a.no_of_inputs * a.no_of_hiddens)).map (fun i => SVal.fval (a.weights i))
  ++ (List.range (a.no_of_inputs * a.no_of_hiddens)).map (fun i => SVal.fval (a.last_weight_change i))
  ++ (List.range a.no_of_hiddens).map (fun h => SVal.fval (a.bias h))
  ++ (List.range a.no_of_hiddens).map (fun h => SVal.fval (a.last_bias_change h))
  ++ [SVal.fval a.learning_rate, SVal.fval a.noise, SVal.uval a.itterations]

/-- `autocoder_load` (`src/autocoder.c` lines 359-416).  With
`initialise = false` (the only mode used by `conv_load`) the sizes and seed
are stored directly; with `initialise = true` the autocoder is rebuilt by
`autocoder_init` first.  Then dropout percentage, the four arrays, learning
rate, noise and the iteration count are read into the state. -/
def autocoder_load (riw : ℕ → ℕ → ℚ × ℕ) (s : List SVal) (a : AcState)
    (initialise : Bool) : Option (AcState × List SVal) := do
  let (ni, s) ← readI s
  let (nh, s) ← readI s
  let (seed, s) ← readU s
  let a1 := if initialise then autocoder_init riw ni.toNat nh.toNat seed
    else { a with no_of_inputs := ni.toNat, no_of_hiddens := nh.toNat, random_seed := seed }
  let (dp, s) ← readF s
  let (w, s) ← readFArr (ni.toNat * nh.toNat) a1.weights s
  let (lwc, s) ← readFArr (ni.toNat * nh.toNat) a1.last_weight_change s
  let (b, s) ← readFArr nh.toNat a1.bias s
  let (lbc, s) ← readFArr nh.toNat a1.last_bias_change s
  let (lr, s) ← readF s
  let (noi, s) ← readF s
  let (itt, s) ← readU s
  let a2 : AcState := { a1 with
    dropout_percent := dp
    weights := w
    last_weight_change := lwc
    bias := b
    last_bias_change := lbc
    learning_rate := lr
    noise := noi
    itterations := itt }
  return (a2, s)

/-- `conv_save` (`src/deeplearn_conv.c` lines 725-782): the scalar fields in
write order (note `FLOATWRITE(conv->reduction_factor)` emits the raw bytes of
the int field), the `no_of_layers` thresholds, then per layer the embedded
autocoder followed by the layer's three geometry ints. -/
def conv_save (c : ConvState) : List SVal :=
  [SVal.ival c.reduction_factor, SVal.ival c.pooling_factor, SVal.uval c.random_seed,
   SVal.ival c.inputs_across, SVal.ival c.inputs_down, SVal.ival c.inputs_depth,
   SVal.ival c.max_features, SVal.ival c.no_of_layers, SVal.bval c.enable_learning,
   SVal.ival c.current_layer, SVal.bval c.training_complete, SVal.uval c.itterations]
  ++ (List.range c.no_of_layers).map (fun i => SVal.fval (c.error_threshold i))
  ++ (List.range c.no_of_layers).flatMap (fun i =>
      autocoder_save (conv_layer_get c i).autocoder
      ++ [SVal.ival (conv_layer_get c i).units_across,
          SVal.ival (conv_layer_get c i).units_down,
          SVal.ival (conv_layer_get c i).pooling_factor])

/-- The per-layer read loop of `conv_load` (`src/deeplearn_conv.c` lines
848-860): for each already-constructed layer, load its autocoder
(`initialise = 0`) and then its three geometry ints. -/
def conv_load_layers (riw : ℕ → ℕ → ℚ × ℕ) :
    List ConvLayerState → List SVal → Option (List ConvLayerState × List SVal)
  | [], s => some ([], s)
  | L :: rest, s => do
    let (a2, s) ← autocoder_load riw s L.autocoder false
    let (ua, s) ← readI s
    let (ud, s) ← readI s
    let (pfl, s) ← readI s
    let (rest2, s) ← conv_load_layers riw rest s
    return (⟨ua.toNat, ud.toNat, pfl.toNat, a2⟩ :: rest2, s)

/-- The scalar-field reads of `conv_load` (`src/deeplearn_conv.c` lines
794-835): the twelve scalar fields — including `current_layer`,
`training_complete` and `itterations` — are read into the struct, and the
`no_of_layers` thresholds into a temporary array.  Returns the updated struct,
the temporary threshold array, and the remaining stream. -/
def conv_load_scalars (s : List SVal) (c : ConvState) :
    Option (ConvState × (ℕ → ℚ) × List SVal) := do
  let (red, s) ← readI s
  let (pf, s) ← readI s
  let (seed, s) ← readU s
  let (ia, s) ← readI s
  let (idn, s) ← readI s
  let (idep, s) ← readI s
  let (mf, s) ← readI s
  let (n, s) ← readI s
  let (el, s) ← readB s
  let (cl, s) ← readI s
  let (tc, s) ← readB s
  let (itt, s) ← readU s
  let (thr, s) ← readFArr n.toNat (fun _ => 0) s
  let c1 : ConvState := { c with
    reduction_factor := red.toNat
    pooling_factor := pf.toNat
    random_seed := seed
    inputs_across := ia.toNat
    inputs_down := idn.toNat
    inputs_depth := idep.toNat
    max_features := mf.toNat
    no_of_layers := n.toNat
    enable_learning := el
    current_layer := cl.toNat
    training_complete := tc
    itterations := itt }
  return (c1, thr, s)

/-- `conv_load` (`src/deeplearn_conv.c` lines 790-863): reads the scalar
fields and thresholds (`conv_load_scalars`), then calls `conv_init` — which
re-allocates the layers and resets the training-progress fields — and finally
loads each layer's autocoder and geometry.  `&conv->random_seed` is passed to
`conv_init`, so the seed advanced there lands back in the field. -/
def conv_load (rn : ℕ → ℕ) (riw : ℕ → ℕ → ℚ × ℕ) (s : List SVal) (c : ConvState) :
    Option ConvState := do
  let (c1, thr, s1) ← conv_load_scalars s c
  let ci ← conv_init rn riw c1.no_of_layers c1.inputs_across c1.inputs_down
    c1.inputs_depth c1.max_features c1.reduction_factor c1.pooling_factor
    thr c1.random_seed c1
  let c2 : ConvState := { ci.1 with random_seed := ci.2 }
  let (ls2, _) ← conv_load_layers riw c2.layers s1
  return { c2 with layers := ls2 }

/-! ### Derived geometry and concrete instances used by the theorems -/

/-- The `across`/`down` values entering layer `i` of the `conv_init` loop:
the input geometry for layer 0, the previous pooling grid afterwards. -/
def conv_entry_dims (reduction_factor pooling_factor inputs_across inputs_down : ℕ) :
    ℕ → ℕ × ℕ
  | 0 => (inputs_across, inputs_down)
  | i + 1 => (conv_layer_dims reduction_factor pooling_factor inputs_across inputs_down i).2

/-- A constant activation function; the genuine sigmoid satisfies
`AF 0 = 1/2`, so on traces whose weighted sums are all zero this instance
coincides with it pointwise. -/
def afHalf : ℚ → ℚ := fun _ => 1 / 2

/-- A concrete counter-style random source. -/
def rnSucc : ℕ → ℕ := fun s => s + 1

/-- A concrete initial-weight generator (all weights zero). -/
def riwZero : ℕ → ℕ → ℚ × ℕ := fun seed _ => (0, seed + 1)

/-- A 4-input, 1-hidden autocoder with zero weights, zero noise and zero
dropout, as used by the concrete feature-learning evaluations. -/
def acC2 : AcState :=
  { acZero with no_of_inputs := 4, no_of_hiddens := 1, learning_rate := 1 / 5 }

/-- An all-zero pipeline struct (the caller-supplied object passed to
`conv_init` / `conv_load`). -/
def convBlank : ConvState where
  no_of_layers := 0
  current_layer := 0
  training_complete := 0
  itterations := 0
  enable_learning := 0
  BPerror := 0
  error_threshold := fun _ => 0
  history := fun _ => 0
  history_index := 0
  history_ctr := 0
  history_step := 0
  history_plot_interval := 0
  reduction_factor := 0
  pooling_factor := 0
  random_seed := 0
  inputs_across := 0
  inputs_down := 0
  inputs_depth := 0
  max_features := 0
  layers := []

/-- A two-layer pipeline fresh out of training start, used as concrete
witness state for the scheduler claims. -/
def convC1 : ConvState :=
  { convBlank with no_of_layers := 2, history_step := 1, BPerror := -1,
                   error_threshold := fun _ => 1 / 2 }

/-- A 16-input, 1-hidden autocoder for the persistence evaluation. -/
def acC9 : AcState :=
  { acZero with no_of_inputs := 16, no_of_hiddens := 1, learning_rate := 1 / 5,
                dropout_percent := 1 / 100 }

/-- A one-layer pipeline in a non-trivial training state (`current_layer = 1`,
`training_complete = 1`, `itterations = 5`), used for the persistence
round-trip evaluation. -/
def convC9 : ConvState :=
  { convBlank with
    no_of_layers := 1
    current_layer := 1
    training_complete := 1
    itterations := 5
    inputs_across := 4
    inputs_down := 4
    inputs_depth := 1
    max_features := 1
    reduction_factor := 1
    pooling_factor := 1
    history_step := 1
    error_threshold := fun _ => 1 / 10
    layers := [⟨4, 4, 1, acC9⟩] }

/-- The property claimed for `features_patch_coords` (claim C7, amended to
positive radius): an in-bounds status yields a box with
`0 ≤ tx < bx ≤ width`, `0 ≤ ty < by ≤ height` and side `2*patch_radius`, and
each violated edge yields its own distinct status in the order top (-1),
bottom (-2), left (-3), right (-4), relative to the scaled centre
`(cx, cy) = (x*width/samples_across, y*height/samples_down)`. -/
def PatchCoordsProp (x y sa sd r w h : ℤ) : Prop :=
  ((features_patch_coords x y sa sd r w h).status = 0 →
    0 ≤ (features_patch_coords x y sa sd r w h).ty ∧
    (features_patch_coords x y sa sd r w h).ty < (features_patch_coords x y sa sd r w h).b_y ∧
    (features_patch_coords x y sa sd r w h).b_y ≤ h ∧
    0 ≤ (features_patch_coords x y sa sd r w h).tx ∧
    (features_patch_coords x y sa sd r w h).tx < (features_patch_coords x y sa sd r w h).bx ∧
    (features_patch_coords x y sa sd r w h).bx ≤ w ∧
    (features_patch_coords x y sa sd r w h).bx - (features_patch_coords x y sa sd r w h).tx = 2 * r ∧
    (features_patch_coords x y sa sd r w h).b_y - (features_patch_coords x y sa sd r w h).ty = 2 * r) ∧
  ((features_patch_coords x y sa sd r w h).status = -1 ↔ Int.tdiv (y * h) sd - r < 0) ∧
  ((features_patch_coords x y sa sd r w h).status = -2 ↔
    0 ≤ Int.tdiv (y * h) sd - r ∧ h ≤ Int.tdiv (y * h) sd + r) ∧
  ((features_patch_coords x y sa sd r w h).status = -3 ↔
    0 ≤ Int.tdiv (y * h) sd - r ∧ Int.tdiv (y * h) sd + r < h ∧
    Int.tdiv (x * w) sa - r < 0) ∧
  ((features_patch_coords x y sa sd r w h).status = -4 ↔
    0 ≤ Int.tdiv (y * h) sd - r ∧ Int.tdiv (y * h) sd + r < h ∧
    0 ≤ Int.tdiv (x * w) sa - r ∧ w ≤ Int.tdiv (x * w) sa + r) ∧
  ((features_patch_coords x y sa sd r w h).status = 0 ↔
    0 ≤ Int.tdiv (y * h) sd - r ∧ Int.tdiv (y * h) sd + r < h ∧
    0 ≤ Int.tdiv (x * w) sa - r ∧ Int.tdiv (x * w) sa + r < w)

/-- The property claimed for `pooling_from_flt_to_flt` (claim C5): a
destination larger than the source is rejected with -1 and the destination
untouched; equal cell counts copy the source; a strictly smaller destination
succeeds and every destination value is at least every source value mapping
onto it under `dst_coord = src_coord * dst_dim / src_dim`, per channel. -/
def PoolMaxProp (depth l0a l0d : ℕ) (layer0 : ℕ → ℚ) (l1a l1d : ℕ) (layer1 : ℕ → ℚ) : Prop :=
  (l1a * l1d > l0a * l0d →
    pooling_from_flt_to_flt depth l0a l0d layer0 l1a l1d layer1 = (-1, layer1)) ∧
  (l1a * l1d = l0a * l0d →
    (pooling_from_flt_to_flt depth l0a l0d layer0 l1a l1d layer1).1 = 0 ∧
    ∀ k, k < l1a * l1d * depth →
      (pooling_from_flt_to_flt depth l0a l0d layer0 l1a l1d layer1).2 k = layer0 k) ∧
  (l1a * l1d < l0a * l0d →
    (pooling_from_flt_to_flt depth l0a l0d layer0 l1a l1d layer1).1 = 0 ∧
    ∀ y0, y0 < l0d → ∀ x0, x0 < l0a → ∀ d, d < depth →
      layer0 ((y0 * l0a + x0) * depth + d) ≤
        (pooling_from_flt_to_flt depth l0a l0d layer0 l1a l1d layer1).2
          (((y0 * l1d / l0d) * l1a + x0 * l1a / l0a) * depth + d))

/-- The property claimed for the `conv_init` layer geometry (claim C10): both
grids of layer `i` — the convolution grid obtained by dividing by the
reduction factor and the pooling grid obtained by further dividing by the
pooling factor — are at least 4 units in each direction, and the units stored
in the constructed pipeline agree with them. -/
def ConvInitMinGridProp (rf pf ia idn i : ℕ) : Prop :=
  4 ≤ (conv_layer_dims rf pf ia idn i).1.1 ∧
  4 ≤ (conv_layer_dims rf pf ia idn i).1.2 ∧
  4 ≤ (conv_layer_dims rf pf ia idn i).2.1 ∧
  4 ≤ (conv_layer_dims rf pf ia idn i).2.2 ∧
  (∀ rn riw idep mf n thr seed c c2 sd,
    conv_init rn riw n ia idn idep mf rf pf thr seed c = some (c2, sd) →
    i < n →
    (conv_layer_get c2 i).units_across = (conv_layer_dims rf pf ia idn i).1.1 ∧
    (conv_layer_get c2 i).units_down = (conv_layer_dims rf pf ia idn i).1.2)

/-- The property claimed for `conv_update_training_error` on the actively
trained layer (claim C8): an unset running error (`< 0`) is replaced by the
new value with nothing else changed; otherwise the error is folded as
`running*0.99 + new*0.01`, the history component is updated exactly as
`conv_update_history` does on the folded state, the iteration counter is
incremented (capped at `UINT_MAX`), and the running error ends as the folded
value unless it crossed the layer threshold (in which case it is reset to the
unset sentinel and the layer advances, per the ratchet). -/
def ConvEmaProp (layer_index : ℕ) (e : ℚ) (c : ConvState) : Prop :=
  (c.BPerror < 0 →
    conv_update_training_error layer_index e c = { c with BPerror := e }) ∧
  (0 ≤ c.BPerror →
    (conv_update_training_error layer_index e c).itterations =
      (if c.itterations < 4294967295 then c.itterations + 1 else c.itterations) ∧
    (conv_update_training_error layer_index e c).history =
      (conv_update_history { c with BPerror := c.BPerror * (99 / 100) + e * (1 / 100) }).history ∧
    (conv_update_training_error layer_index e c).history_index =
      (conv_update_history { c with BPerror := c.BPerror * (99 / 100) + e * (1 / 100) }).history_index ∧
    (conv_update_training_error layer_index e c).history_ctr =
      (conv_update_history { c with BPerror := c.BPerror * (99 / 100) + e * (1 / 100) }).history_ctr ∧
    (conv_update_training_error layer_index e c).history_step =
      (conv_update_history { c with BPerror := c.BPerror * (99 / 100) + e * (1 / 100) }).history_step ∧
    (c.BPerror * (99 / 100) + e * (1 / 100) < c.error_threshold layer_index →
      (conv_update_training_error layer_index e c).BPerror = -1 ∧
      (conv_update_training_error layer_index e c).current_layer = c.current_layer + 1) ∧
    (¬ c.BPerror * (99 / 100) + e * (1 / 100) < c.error_threshold layer_index →
      (conv_update_training_error layer_index e c).BPerror =
        c.BPerror * (99 / 100) + e * (1 / 100) ∧
      (conv_update_training_error layer_index e c).current_layer = c.current_layer))

/-- The property claimed for one `conv_img` call (claim C1): `current_layer`
never decreases and increments by at most one, stays within
`[0, no_of_layers]`, and `training_complete` is set exactly when
`current_layer` has reached `no_of_layers`. -/
def ConvImgRatchetProp (errs : ℕ → Except ℤ ℚ) (poolok : ℕ → Bool) (c : ConvState) : Prop :=
  c.current_layer ≤ (conv_img errs poolok c).2.current_layer ∧
  (conv_img errs poolok c).2.current_layer ≤ c.current_layer + 1 ∧
  (conv_img errs poolok c).2.no_of_layers = c.no_of_layers ∧
  (conv_img errs poolok c).2.current_layer ≤ c.no_of_layers ∧
  ((conv_img errs poolok c).2.training_complete ≠ 0 ↔
    (conv_img errs poolok c).2.current_layer = (conv_img errs poolok c).2.no_of_layers) ∧
  ConvInv (conv_img errs poolok c).2

/-- The amended property of claim C2 for the float variant: `features_learn`
succeeds, skips the out-of-bounds cells and runs exactly the in-bounds
reference computation `features_learn_inbounds` (one online update per
in-bounds cell, in visit order), and returns as `avg_error` the accumulated
error sum divided by `samples_across * samples_down` — the total grid cell
count, not the in-bounds count. -/
def FeaturesLearnMeanProp (af : ℚ → ℚ) (rn : ℕ → ℕ) (samples_across samples_down : ℕ)
    (patch_radius : ℤ) (inputs_width inputs_height inputs_depth : ℕ)
    (inputs_floats : ℕ → ℚ) (layer0_units : ℕ) (a : AcState) : Prop :=
  features_learn af rn samples_across samples_down patch_radius inputs_width inputs_height
      inputs_depth inputs_floats layer0_units a =
    (0,
     (features_learn_inbounds samples_across samples_down patch_radius inputs_width
        inputs_height (scan_patch inputs_floats inputs_width inputs_depth)
        (autocoder_update af rn) a).1,
     (features_learn_inbounds samples_across samples_down patch_radius inputs_width
        inputs_height (scan_patch inputs_floats inputs_width inputs_depth)
        (autocoder_update af rn) a).2.1 /
       ((samples_across * samples_down : ℕ) : ℚ))

/-- The amended property of claim C2 for the byte-image variant. -/
def FeaturesLearnImageMeanProp (af : ℚ → ℚ) (rn : ℕ → ℕ) (samples_across samples_down : ℕ)
    (patch_radius : ℤ) (img_width img_height img_depth : ℕ)
    (img : ℕ → ℕ) (layer0_units : ℕ) (a : AcState) : Prop :=
  features_learn_from_image af rn samples_across samples_down patch_radius img_width
      img_height img_depth img layer0_units a =
    (0,
     (features_learn_inbounds samples_across samples_down patch_radius img_width
        img_height (scan_image_patch img img_width img_depth)
        (autocoder_update af rn) a).1,
     (features_learn_inbounds samples_across samples_down patch_radius img_width
        img_height (scan_image_patch img img_width img_depth)
        (autocoder_update af rn) a).2.1 /
       ((samples_across * samples_down : ℕ) : ℚ))

/-- The property of claim C6 for the float variant: `features_convolve`
succeeds, the whole destination slice of the given out-of-bounds grid cell
holds exactly zero after the call — whatever the destination held before —
and no learning occurred (weights and biases of the autocoder unchanged). -/
def FeaturesConvolveOobProp (af : ℚ → ℚ) (rn : ℕ → ℕ) (samples_across samples_down : ℕ)
    (patch_radius : ℤ) (floats_width floats_height floats_depth : ℕ)
    (layer0 : ℕ → ℚ) (layer1_units : ℕ) (layer1 : ℕ → ℚ) (a : AcState)
    (use_dropouts : Bool) (fx fy : ℕ) : Prop :=
  (features_convolve af rn samples_across samples_down patch_radius floats_width
      floats_height floats_depth layer0 layer1_units layer1 a use_dropouts).1 = 0 ∧
  (∀ f, f < a.no_of_hiddens →
    (features_convolve af rn samples_across samples_down patch_radius floats_width
        floats_height floats_depth layer0 layer1_units layer1 a use_dropouts).2.2
      ((fy * samples_across + fx) * a.no_of_hiddens + f) = 0) ∧
  (features_convolve af rn samples_across samples_down patch_radius floats_width
      floats_height floats_depth layer0 layer1_units layer1 a use_dropouts).2.1.weights
    = a.weights ∧
  (features_convolve af rn samples_across samples_down patch_radius floats_width
      floats_height floats_depth layer0 layer1_units layer1 a use_dropouts).2.1.bias
    = a.bias

/-- The property of claim C6 for the byte-image variant. -/
def FeaturesConvolveImageOobProp (af : ℚ → ℚ) (rn : ℕ → ℕ) (samples_across samples_down : ℕ)
    (patch_radius : ℤ) (img_width img_height img_depth : ℕ)
    (img : ℕ → ℕ) (layer0_units : ℕ) (layer0 : ℕ → ℚ) (a : AcState)
    (use_dropouts : Bool) (fx fy : ℕ) : Prop :=
  (features_convolve_image af rn samples_across samples_down patch_radius img_width
      img_height img_depth img layer0_units layer0 a use_dropouts).1 = 0 ∧
  (∀ f, f < a.no_of_hiddens →
    (features_convolve_image af rn samples_across samples_down patch_radius img_width
        img_height img_depth img layer0_units layer0 a use_dropouts).2.2
      ((fy * samples_across + fx) * a.no_of_hiddens + f) = 0) ∧
  (features_convolve_image af rn samples_across samples_down patch_radius img_width
      img_height img_depth img layer0_units layer0 a use_dropouts).2.1.weights
    = a.weights ∧
  (features_convolve_image af rn samples_across samples_down patch_radius img_width
      img_height img_depth img layer0_units layer0 a use_dropouts).2.1.bias
    = a.bias

/-! ## Theorems -/

theorem clamp4_le (n : ℕ) : 4 ≤ clamp4 n := by
  unfold clamp4
  split <;> omega

theorem conv_layer_dims_entry (rf pf ia idn i : ℕ) :
    conv_layer_dims rf pf ia idn i =
      ((clamp4 ((conv_entry_dims rf pf ia idn i).1 / rf),
        clamp4 ((conv_entry_dims rf pf ia idn i).2 / rf)),
       (clamp4 (clamp4 ((conv_entry_dims rf pf ia idn i).1 / rf) / pf),
        clamp4 (clamp4 ((conv_entry_dims rf pf ia idn i).2 / rf) / pf))) := by
  cases i <;> rfl

theorem conv_init_loop_getD (rn : ℕ → ℕ) (riw : ℕ → ℕ → ℚ × ℕ)
    (ia idn idep mf n rf pf : ℕ) :
    ∀ rem i across down pa seed j,
      j < rem →
      across = (conv_entry_dims rf pf ia idn i).1 →
      down = (conv_entry_dims rf pf ia idn i).2 →
      ((conv_init_loop rn riw ia idep mf n rf pf i rem across down pa seed).1.getD j
          ⟨0, 0, 0, acZero⟩).units_across = (conv_layer_dims rf pf ia idn (i + j)).1.1 ∧
      ((conv_init_loop rn riw ia idep mf n rf pf i rem across down pa seed).1.getD j
          ⟨0, 0, 0, acZero⟩).units_down = (conv_layer_dims rf pf ia idn (i + j)).1.2 := by
  intro rem
  induction rem with
  | zero => intro i across down pa seed j hj; omega
  | succ rem ih =>
    intro i across down pa seed j hj ha hd
    cases j with
    | zero =>
      simp only [conv_init_loop, List.getD_cons_zero, Nat.add_zero]
      rw [conv_layer_dims_entry, ← ha, ← hd]
      exact ⟨rfl, rfl⟩
    | succ j =>
      simp only [conv_init_loop, List.getD_cons_succ]
      have h1 : clamp4 (clamp4 (across / rf) / pf) = (conv_entry_dims rf pf ia idn (i + 1)).1 := by
        show _ = (conv_layer_dims rf pf ia idn i).2.1
        rw [conv_layer_dims_entry, ← ha]
      have h2 : clamp4 (clamp4 (down / rf) / pf) = (conv_entry_dims rf pf ia idn (i + 1)).2 := by
        show _ = (conv_layer_dims rf pf ia idn i).2.2
        rw [conv_layer_dims_entry, ← hd]
      have hrec := ih (i + 1) (clamp4 (clamp4 (across / rf) / pf)) (clamp4 (clamp4 (down / rf) / pf))
        (clamp4 (across / rf)) (rn seed) j (by omega) h1 h2
      have hidx : i + 1 + j = i + (j + 1) := by omega
      rw [hidx] at hrec
      exact hrec

/-- Claim C10: for every successful `conv_init`, every layer's grid dimensions
are clamped to a minimum of 4 units in each direction — both after dividing by
the reduction factor (the layer / convolution-buffer grid, first component)
and after dividing by the pooling factor (the pooling-buffer grid, second
component) — so no layer or pooling buffer is allocated with a grid smaller
than 4×4, however large the factors; and the units stored by `conv_init`
agree with those clamped dimensions. -/
theorem conv_init_min_grid (rf pf ia idn i : ℕ) (hrf : 1 ≤ rf) (hpf : 1 ≤ pf) :
    ConvInitMinGridProp rf pf ia idn i := by
  unfold ConvInitMinGridProp
  refine ⟨?_, ?_, ?_, ?_, ?_⟩
  · rw [conv_layer_dims_entry]; exact clamp4_le _
  · rw [conv_layer_dims_entry]; exact clamp4_le _
  · rw [conv_layer_dims_entry]; exact clamp4_le _
  · rw [conv_layer_dims_entry]; exact clamp4_le _
  · intro rn riw idep mf n thr seed c c2 sd hinit hi
    unfold conv_init at hinit
    by_cases hn : n ≥ 100
    · rw [if_pos hn] at hinit
      exact absurd hinit (by simp)
    · rw [if_neg hn] at hinit
      injection hinit with h
      injection h with h1 h2
      subst h1
      have hg := conv_init_loop_getD rn riw ia idn idep mf n rf pf n 0 ia idn 0 (rn seed) i hi
        rfl rfl
      simp only [Nat.zero_add] at hg
      exact ⟨hg.1, hg.2⟩

/-- Claim C10 witness: the clamped geometry with concrete factors 2. -/
theorem conv_init_min_grid_witness :
    ((1 ≤ 2 ∧ 1 ≤ 2) ∧ ConvInitMinGridProp 2 2 64 64 0) :=
  ⟨⟨by decide, by decide⟩, conv_init_min_grid 2 2 64 64 0 (by decide) (by decide)⟩

/-- Claim C4: layer 0's autocoder input depth is the image depth, but for a
layer `i > 0` the depth used by `conv_init` (line 115) and `conv_subsequent`
(line 418) is `conv_layer_features(conv, i)` — the feature count of layer `i`
itself — and not the feature count of layer `i-1`: with 2 layers and 100
maximum features, layer 1 is sized with depth 75 while layer 0 has 100
features, so its autocoder has 2·2·4·75 = 1200 inputs instead of 1600. -/
theorem conv_init_depth_eval :
    conv_init_ac_depth 3 100 2 0 = 3 ∧
    conv_init_ac_depth 3 100 2 1 = 75 ∧
    conv_subsequent_src_depth 100 2 1 = 75 ∧
    conv_layer_features 100 2 0 = 100 ∧
    conv_init_ac_depth 3 100 2 1 ≠ conv_layer_features 100 2 0 ∧
    (conv_init rnSucc riwZero 2 64 64 3 100 2 2 (fun _ => 0) 0 convBlank).map
      (fun p => (conv_layer_get p.1 1).autocoder.no_of_inputs) = some 1200 ∧
    (2 * 2 * 4) * conv_layer_features 100 2 0 = 1600 := by
  refine ⟨by decide, by decide, by decide, by decide, by decide, ?_, by decide⟩
  decide

/-- Claim C3: `unpooling_from_flt_to_flt` rejects exactly the calls the claim
says must succeed.  With a 1×1 source and a 2×2 destination (destination cell
count 4 ≥ source cell count 1) the function returns -1 and leaves the
destination untouched, while a 2×2 source into a 1×1 destination — the
direction the claim forbids — returns 0. -/
theorem unpooling_guard_eval :
    (unpooling_from_flt_to_flt 1 1 1 (fun _ => 1) 2 2 (fun _ => 0)).1 = -1 ∧
    (unpooling_from_flt_to_flt 1 1 1 (fun _ => 1) 2 2 (fun _ => 0)).2 5 = 0 ∧
    (1 : ℕ) * 1 ≤ 2 * 2 ∧
    (unpooling_from_flt_to_flt 1 2 2 (fun _ => 1) 1 1 (fun _ => 0)).1 = 0 := by
  refine ⟨by decide, by decide, by decide, by decide⟩

/-- Claim C7 counterexample: with `patch_radius = 0` the grid coordinate (0,0)
on a 1×1 grid over a 4×4 input yields the in-bounds status with an empty box
`tx = bx`, contradicting the claimed `tx < bx` for "any patch_radius". -/
theorem features_patch_coords_radius0 :
    (features_patch_coords 0 0 1 1 0 4 4).status = 0 ∧
    ¬ (features_patch_coords 0 0 1 1 0 4 4).tx < (features_patch_coords 0 0 1 1 0 4 4).bx := by
  decide

/-- Claim C7 (amended: for patch_radius ≥ 1): whenever `features_patch_coords`
returns the in-bounds status, the box satisfies `0 ≤ tx < bx ≤ width` and
`0 ≤ ty < by ≤ height` with side exactly `2*patch_radius` per axis, and each
of the four violated edges yields its own distinct status. -/
theorem features_patch_coords_spec (x y sa sd r w h : ℤ) (hr : 1 ≤ r) :
    PatchCoordsProp x y sa sd r w h := by
  unfold PatchCoordsProp features_patch_coords
  dsimp only
  generalize Int.tdiv (y * h) sd = cy
  generalize Int.tdiv (x * w) sa = cx
  split_ifs with h1 h2 h3 h4 <;>
    (try dsimp only) <;>
    simp only [iff_iff_implies_and_implies, true_implies, implies_true, and_true,
      true_and, false_implies, imp_false] <;>
    omega

/-- Claim C7 witness: a concrete in-bounds instantiation with radius 2. -/
theorem features_patch_coords_spec_witness :
    (1 : ℤ) ≤ 2 ∧ PatchCoordsProp 1 1 4 4 2 16 16 :=
  ⟨by decide, features_patch_coords_spec 1 1 4 4 2 16 16 (by decide)⟩

theorem foldl_fn_le {α : Type} (g : (ℕ → ℚ) → α → (ℕ → ℚ))
    (hm : ∀ b a k, b k ≤ g b a k) :
    ∀ (l : List α) (b : ℕ → ℚ) (k : ℕ), b k ≤ (l.foldl g b) k := by
  intro l
  induction l with
  | nil => intro b k; exact le_refl _
  | cons a t ih => intro b k; exact le_trans (hm b a k) (ih (g b a) k)

theorem foldl_fn_le_of_mem {α : Type} (g : (ℕ → ℚ) → α → (ℕ → ℚ))
    (hm : ∀ b a k, b k ≤ g b a k) :
    ∀ (l : List α) (x : α) (b : ℕ → ℚ) (m : ℕ) (v : ℚ),
      x ∈ l → (∀ b2, v ≤ g b2 x m) → v ≤ (l.foldl g b) m := by
  intro l
  induction l with
  | nil => intro x b m v hx; exact absurd hx (List.not_mem_nil x)
  | cons a t ih =>
    intro x b m v hx hset
    rcases List.mem_cons.mp hx with hxa | hxt
    · subst hxa
      exact le_trans (hset b) (foldl_fn_le g hm t (g b x) m)
    · exact ih x (g b a) m v hxt hset

theorem pool_cell_le (depth : ℕ) (layer0 : ℕ → ℚ) (n0 n1 : ℕ) (b : ℕ → ℚ) (k : ℕ) :
    b k ≤ pool_cell depth layer0 n0 n1 b k := by
  unfold pool_cell
  apply foldl_fn_le
  intro b2 d k2
  by_cases hc : layer0 (n0 + d) > b2 (n1 + d)
  · rw [if_pos hc]
    unfold arraySet
    by_cases hk : k2 = n1 + d
    · rw [if_pos hk, hk]
      exact le_of_lt hc
    · rw [if_neg hk]
  · rw [if_neg hc]

theorem pool_cell_ge (depth : ℕ) (layer0 : ℕ → ℚ) (n0 n1 : ℕ) (b : ℕ → ℚ)
    (d : ℕ) (hd : d < depth) :
    layer0 (n0 + d) ≤ pool_cell depth layer0 n0 n1 b (n1 + d) := by
  unfold pool_cell
  apply foldl_fn_le_of_mem _ _ _ d _ _ _ (List.mem_range.mpr hd)
  · intro b2
    by_cases hc : layer0 (n0 + d) > b2 (n1 + d)
    · rw [if_pos hc]
      unfold arraySet
      rw [if_pos rfl]
    · rw [if_neg hc]
      exact le_of_not_lt hc
  · intro b2 a k
    by_cases hc : layer0 (n0 + a) > b2 (n1 + a)
    · rw [if_pos hc]
      unfold arraySet
      by_cases hk : k = n1 + a
      · rw [if_pos hk, hk]
        exact le_of_lt hc
      · rw [if_neg hk]
    · rw [if_neg hc]

/-- Claim C5: `pooling_from_flt_to_flt` rejects a destination larger than the
source with -1, copies the source on equal cell counts, and with a strictly
smaller destination every destination value is at least every source value
mapping onto it under proportional coordinate scaling, per channel. -/
theorem pooling_max_spec (depth l0a l0d l1a l1d : ℕ) (layer0 layer1 : ℕ → ℚ) :
    PoolMaxProp depth l0a l0d layer0 l1a l1d layer1 := by
  unfold PoolMaxProp
  refine ⟨?_, ?_, ?_⟩
  · intro hgt
    unfold pooling_from_flt_to_flt
    rw [if_pos hgt]
  · intro heq
    unfold pooling_from_flt_to_flt
    rw [if_neg (by omega), if_pos heq]
    exact ⟨rfl, fun k hk => by simp only [if_pos hk]⟩
  · intro hlt
    unfold pooling_from_flt_to_flt
    rw [if_neg (by omega), if_neg (by omega)]
    refine ⟨rfl, ?_⟩
    intro y0 hy0 x0 hx0 d hd
    dsimp only
    apply foldl_fn_le_of_mem _ _ _ y0 _ _ _ (List.mem_range.mpr hy0)
    · intro b2
      apply foldl_fn_le_of_mem _ _ _ x0 _ _ _ (List.mem_range.mpr hx0)
      · intro b3
        exact pool_cell_ge depth layer0 ((y0 * l0a + x0) * depth)
          (((y0 * l1d / l0d) * l1a + x0 * l1a / l0a) * depth) b3 d hd
      · intro b3 a k
        exact pool_cell_le depth layer0 _ _ b3 k
    · intro b2 a k
      apply foldl_fn_le
      intro b3 a2 k2
      exact pool_cell_le depth layer0 _ _ b3 k2

/-- Claim C5 witness: 2×2 source pooled into a 1×1 destination; the strict
case of the theorem applies and, concretely, the single destination cell ends
up holding the maximum of the four source values. -/
theorem pooling_max_spec_witness :
    (1 * 1 < 2 * 2) ∧
    ((pooling_from_flt_to_flt 1 2 2 (fun k : ℕ => (k : ℚ)) 1 1 (fun _ => 0)).1 = 0 ∧
      ∀ y0 : ℕ, y0 < 2 → ∀ x0 : ℕ, x0 < 2 → ∀ d : ℕ, d < 1 →
        (fun k : ℕ => (k : ℚ)) ((y0 * 2 + x0) * 1 + d) ≤
          (pooling_from_flt_to_flt 1 2 2 (fun k : ℕ => (k : ℚ)) 1 1 (fun _ => 0)).2
            (((y0 * 1 / 2) * 1 + x0 * 1 / 2) * 1 + d)) :=
  ⟨by decide, (pooling_max_spec 1 2 2 1 1 (fun k : ℕ => (k : ℚ)) (fun _ => 0)).2.2 (by decide)⟩

theorem conv_update_history_fields (c : ConvState) :
    (conv_update_history c).BPerror = c.BPerror ∧
    (conv_update_history c).itterations = c.itterations ∧
    (conv_update_history c).error_threshold = c.error_threshold ∧
    (conv_update_history c).current_layer = c.current_layer ∧
    (conv_update_history c).training_complete = c.training_complete ∧
    (conv_update_history c).no_of_layers = c.no_of_layers := by
  unfold conv_update_history
  dsimp only
  split_ifs <;> exact ⟨rfl, rfl, rfl, rfl, rfl, rfl⟩

/-- Claim C8: when learning is enabled for the actively-training layer
(`training_complete = 0` and the layer index is the current layer), the
returned error is folded into the running error as an exponential moving
average — first sample replaces the unset sentinel, otherwise
`running*0.99 + new*0.01` — and the history update and the iteration-counter
increment happen only on the moving-average branch. -/
theorem conv_update_training_error_ema (layer_index : ℕ) (e : ℚ) (c : ConvState)
    (htc : c.training_complete = 0) (hli : layer_index = c.current_layer) :
    ConvEmaProp layer_index e c := by
  have hmax : get_max_layer c = c.current_layer + 1 := by
    unfold get_max_layer
    rw [if_pos htc]
  obtain ⟨hb, hit, hth, hcl2, htc2, hn⟩ :=
    conv_update_history_fields { c with BPerror := c.BPerror * (99 / 100) + e * (1 / 100) }
  dsimp only at hb hit hth hcl2 htc2 hn
  unfold ConvEmaProp conv_update_training_error
  rw [hmax]
  rw [if_neg (show ¬ c.training_complete ≠ 0 by omega),
    if_neg (show ¬ layer_index + 1 < c.current_layer + 1 by omega)]
  constructor
  · intro hneg
    rw [if_pos hneg]
  · intro hpos
    rw [if_neg (not_lt.mpr hpos)]
    dsimp only
    split_ifs with h3 h4 h5 <;> dsimp only <;>
      refine ⟨by omega, rfl, rfl, rfl, rfl, fun hcross => ?_, fun hcross => ?_⟩ <;>
      first
        | exact ⟨rfl, by rw [hcl2]⟩
        | exact ⟨hb, hcl2⟩
        | (rw [hb, hth] at h3; exact absurd h3 hcross)
        | (rw [hb, hth] at h3; exact absurd hcross h3)

theorem conv_enable_learning_fields (i : ℕ) (c : ConvState) :
    (conv_enable_learning i c).current_layer = c.current_layer ∧
    (conv_enable_learning i c).training_complete = c.training_complete ∧
    (conv_enable_learning i c).no_of_layers = c.no_of_layers ∧
    (conv_enable_learning i c).BPerror = c.BPerror ∧
    (conv_enable_learning i c).error_threshold = c.error_threshold := by
  unfold conv_enable_learning
  split_ifs <;> exact ⟨rfl, rfl, rfl, rfl, rfl⟩

theorem conv_update_training_error_complete (layer_index : ℕ) (e : ℚ) (c : ConvState)
    (htc : c.training_complete ≠ 0) :
    conv_update_training_error layer_index e c = c := by
  unfold conv_update_training_error
  rw [if_pos htc]

theorem conv_update_training_error_step (layer_index : ℕ) (e : ℚ) (c : ConvState)
    (htc : c.training_complete = 0) (hcl : c.current_layer < c.no_of_layers) :
    (conv_update_training_error layer_index e c).no_of_layers = c.no_of_layers ∧
    c.current_layer ≤ (conv_update_training_error layer_index e c).current_layer ∧
    (conv_update_training_error layer_index e c).current_layer ≤ c.current_layer + 1 ∧
    (conv_update_training_error layer_index e c).current_layer ≤ c.no_of_layers ∧
    ((conv_update_training_error layer_index e c).training_complete ≠ 0 ↔
      (conv_update_training_error layer_index e c).current_layer = c.no_of_layers) := by
  have hmax : get_max_layer c = c.current_layer + 1 := by
    unfold get_max_layer
    rw [if_pos htc]
  obtain ⟨hb, hit, hth, hcl2, htc2, hn⟩ :=
    conv_update_history_fields { c with BPerror := c.BPerror * (99 / 100) + e * (1 / 100) }
  dsimp only at hb hit hth hcl2 htc2 hn
  unfold conv_update_training_error
  rw [hmax]
  rw [if_neg (show ¬ c.training_complete ≠ 0 by omega)]
  by_cases h1 : layer_index + 1 < c.current_layer + 1
  · rw [if_pos h1]
    exact ⟨rfl, le_refl _, by omega, by omega, iff_of_false (by omega) (by omega)⟩
  · rw [if_neg h1]
    by_cases h2 : c.BPerror < 0
    · rw [if_pos h2]
      dsimp only
      exact ⟨rfl, le_refl _, by omega, by omega, iff_of_false (by omega) (by omega)⟩
    · rw [if_neg h2]
      dsimp only
      by_cases h3 : (conv_update_history
            { c with BPerror := c.BPerror * (99 / 100) + e * (1 / 100) }).BPerror <
          (conv_update_history
            { c with BPerror := c.BPerror * (99 / 100) + e * (1 / 100) }).error_threshold
            layer_index
      · rw [if_pos h3]
        by_cases h4 : (conv_update_history
              { c with BPerror := c.BPerror * (99 / 100) + e * (1 / 100) }).no_of_layers ≤
            (conv_update_history
              { c with BPerror := c.BPerror * (99 / 100) + e * (1 / 100) }).current_layer + 1
        · rw [if_pos h4]
          dsimp only
          exact ⟨by omega, by omega, by omega, by omega, iff_of_true (by omega) (by omega)⟩
        · rw [if_neg h4]
          dsimp only
          exact ⟨by omega, by omega, by omega, by omega, iff_of_false (by omega) (by omega)⟩
      · rw [if_neg h3]
        dsimp only
        exact ⟨by omega, by omega, by omega, by omega, iff_of_false (by omega) (by omega)⟩

theorem conv_img_loop_complete (errs : ℕ → Except ℤ ℚ) (poolok : ℕ → Bool) :
    ∀ (rem i : ℕ) (c : ConvState), c.training_complete ≠ 0 →
      (conv_img_loop errs poolok i rem c).2.current_layer = c.current_layer ∧
      (conv_img_loop errs poolok i rem c).2.training_complete = c.training_complete ∧
      (conv_img_loop errs poolok i rem c).2.no_of_layers = c.no_of_layers := by
  intro rem
  induction rem with
  | zero => intro i c htc; exact ⟨rfl, rfl, rfl⟩
  | succ rem ih =>
    intro i c htc
    obtain ⟨he1, he2, he3, he4, he5⟩ := conv_enable_learning_fields i c
    unfold conv_img_loop
    cases herr : errs i with
    | error rv => exact ⟨he1, he2, he3⟩
    | ok e =>
      dsimp only
      rw [conv_update_training_error_complete i e (conv_enable_learning i c) (by omega)]
      by_cases hp : poolok i
      · rw [if_pos hp]
        obtain ⟨g1, g2, g3⟩ := ih (i + 1) (conv_enable_learning i c) (by omega)
        exact ⟨by omega, by rw [g2, he2], by omega⟩
      · rw [if_neg hp]
        exact ⟨he1, he2, he3⟩

theorem conv_update_training_error_noop (layer_index : ℕ) (e : ℚ) (c : ConvState)
    (htc : c.training_complete = 0) (hlt : layer_index < c.current_layer) :
    conv_update_training_error layer_index e c = c := by
  have hmax : get_max_layer c = c.current_layer + 1 := by
    unfold get_max_layer
    rw [if_pos htc]
  unfold conv_update_training_error
  rw [hmax]
  rw [if_neg (show ¬ c.training_complete ≠ 0 by omega), if_pos (by omega)]

theorem conv_img_loop_training (errs : ℕ → Except ℤ ℚ) (poolok : ℕ → Bool) :
    ∀ (rem i : ℕ) (c : ConvState), c.training_complete = 0 →
      c.current_layer < c.no_of_layers →
      i + rem ≤ c.current_layer + 1 →
      c.current_layer ≤ (conv_img_loop errs poolok i rem c).2.current_layer ∧
      (conv_img_loop errs poolok i rem c).2.current_layer ≤ c.current_layer + 1 ∧
      (conv_img_loop errs poolok i rem c).2.no_of_layers = c.no_of_layers ∧
      (conv_img_loop errs poolok i rem c).2.current_layer ≤ c.no_of_layers ∧
      ((conv_img_loop errs poolok i rem c).2.training_complete ≠ 0 ↔
        (conv_img_loop errs poolok i rem c).2.current_layer =
          (conv_img_loop errs poolok i rem c).2.no_of_layers) := by
  intro rem
  induction rem with
  | zero =>
    intro i c htc hcl hrem
    dsimp only [conv_img_loop]
    exact ⟨le_refl _, by omega, rfl, by omega, iff_of_false (by simp [htc]) (by omega)⟩
  | succ rem ih =>
    intro i c htc hcl hrem
    obtain ⟨he1, he2, he3, he4, he5⟩ := conv_enable_learning_fields i c
    unfold conv_img_loop
    cases herr : errs i with
    | error rv =>
      dsimp only
      exact ⟨by omega, by omega, he3, by omega,
        iff_of_false (by simp [he2, htc]) (by omega)⟩
    | ok e =>
      dsimp only
      by_cases hlo : i < c.current_layer
      · have hUeq : conv_update_training_error i e (conv_enable_learning i c) =
            conv_enable_learning i c :=
          conv_update_training_error_noop i e (conv_enable_learning i c) (by omega) (by omega)
        rw [hUeq]
        by_cases hp : poolok i
        · rw [if_pos hp]
          obtain ⟨k1, k2, k3, k4, k5⟩ := ih (i + 1) (conv_enable_learning i c)
            (by omega) (by omega) (by omega)
          exact ⟨by omega, by omega, by omega, by omega, k5⟩
        · rw [if_neg hp]
          dsimp only
          exact ⟨by omega, by omega, he3, by omega,
            iff_of_false (by simp [he2, htc]) (by omega)⟩
      · have hstop : rem = 0 := by omega
        subst hstop
        obtain ⟨g1, g2, g3, g4, g5⟩ :=
          conv_update_training_error_step i e (conv_enable_learning i c) (by omega) (by omega)
        rw [he1] at g2 g3
        rw [he3] at g1 g4 g5
        by_cases hp : poolok i
        · rw [if_pos hp]
          dsimp only [conv_img_loop]
          exact ⟨g2, g3, g1, g4, by rw [g1]; exact g5⟩
        · rw [if_neg hp]
          dsimp only
          exact ⟨g2, g3, g1, g4, by rw [g1]; exact g5⟩

/-- Claim C1: for every pipeline state satisfying the scheduler invariant and
every `conv_img` call, `current_layer` increments by at most one and never
decreases, stays within `[0, no_of_layers]`, and `training_complete` is set
exactly when `current_layer` reaches `no_of_layers`; the invariant is
preserved. -/
theorem conv_img_ratchet (errs : ℕ → Except ℤ ℚ) (poolok : ℕ → Bool) (c : ConvState)
    (h : ConvInv c) : ConvImgRatchetProp errs poolok c := by
  obtain ⟨hle, hiff⟩ := h
  unfold ConvImgRatchetProp conv_img ConvInv
  by_cases htc : c.training_complete = 0
  · have hcl : c.current_layer < c.no_of_layers := by
      rcases Nat.lt_or_ge c.current_layer c.no_of_layers with hx | hx
      · exact hx
      · exact absurd (hiff.mpr (by omega)) (by omega)
    obtain ⟨g1, g2, g3, g4, g5⟩ :=
      conv_img_loop_training errs poolok (get_max_layer c) 0 c htc hcl
        (by unfold get_max_layer; rw [if_pos htc]; omega)
    exact ⟨g1, g2, g3, g4, g5, by omega, g5⟩
  · obtain ⟨g1, g2, g3⟩ := conv_img_loop_complete errs poolok (get_max_layer c) 0 c htc
    have hcl : c.current_layer = c.no_of_layers := hiff.mp htc
    exact ⟨by omega, by omega, g3, by omega, iff_of_true (by omega) (by omega),
      by omega, iff_of_true (by omega) (by omega)⟩

/-- Claim C1 witness: the invariant holds for a freshly initialised two-layer
pipeline and the ratchet properties follow for a concrete call. -/
theorem conv_img_ratchet_witness :
    ConvInv convC1 ∧
    ConvImgRatchetProp (fun _ => Except.ok (3 / 10)) (fun _ => true) convC1 :=
  ⟨by decide, conv_img_ratchet (fun _ => Except.ok (3 / 10)) (fun _ => true) convC1 (by decide)⟩

/-- Claim C8 witness: both branches exercised on concrete states — the unset
sentinel is replaced by the new error on the first sample. -/
theorem conv_update_training_error_ema_witness :
    (convC1.training_complete = 0 ∧ (0 : ℕ) = convC1.current_layer) ∧
    ConvEmaProp 0 (3 / 10) convC1 :=
  ⟨⟨rfl, rfl⟩, conv_update_training_error_ema 0 (3 / 10) convC1 rfl rfl⟩

theorem foldl_count {α β : Type} (f : (ℕ × α) → β → (ℕ × α)) (k : ℕ)
    (hf : ∀ st b, (f st b).1 = st.1 + k) :
    ∀ (l : List β) (st : ℕ × α), (l.foldl f st).1 = st.1 + l.length * k := by
  intro l
  induction l with
  | nil => intro st; simp
  | cons b t ih =>
    intro st
    simp only [List.foldl_cons, List.length_cons]
    rw [ih, hf]
    ring

theorem foldl_pres {α β : Type} (P : α → Prop) (f : α → β → α)
    (hf : ∀ a b, P a → P (f a b)) :
    ∀ (l : List β) (a : α), P a → P (l.foldl f a) := by
  intro l
  induction l with
  | nil => intro a h; simpa using h
  | cons b t ih =>
    intro a h
    simpa using ih _ (hf a b h)

theorem scan_patch_core_count (valf : ℕ → ℚ) (width depth : ℕ)
    (tx ty bx b_y : ℤ) (a : AcState) :
    (scan_patch_core valf width depth tx ty bx b_y a).1 =
      (b_y - ty).toNat * ((bx - tx).toNat * depth) := by
  have h1 : ∀ (yy : ℕ) (st : ℕ × AcState),
      ((List.range (bx - tx).toNat).foldl (fun (st2 : ℕ × AcState) (xx : ℕ) =>
        (List.range depth).reverse.foldl
          (fun st3 d =>
            scan_step (valf ((((ty + yy) * width + (tx + xx)) * depth).toNat + d)) st3)
          st2) st).1 = st.1 + (bx - tx).toNat * depth := by
    intro yy st
    rw [foldl_count _ depth (fun st2 xx => by
      rw [foldl_count _ 1 (fun st3 d => rfl)]
      simp)]
    simp
  unfold scan_patch_core
  rw [foldl_count _ ((bx - tx).toNat * depth) (fun st yy => h1 yy st)]
  simp

theorem scan_patch_core_noi (valf : ℕ → ℚ) (width depth : ℕ)
    (tx ty bx b_y : ℤ) (a : AcState) :
    (scan_patch_core valf width depth tx ty bx b_y a).2.no_of_inputs =
      a.no_of_inputs := by
  unfold scan_patch_core
  apply foldl_pres (fun st : ℕ × AcState => st.2.no_of_inputs = a.no_of_inputs)
  · intro st yy h
    apply foldl_pres (fun st : ℕ × AcState => st.2.no_of_inputs = a.no_of_inputs)
    · intro st2 xx h2
      apply foldl_pres (fun st : ℕ × AcState => st.2.no_of_inputs = a.no_of_inputs)
      · intro st3 d h3
        exact h3
      · exact h2
    · exact h
  · rfl

theorem scan_patch_eq_of_count (valf : ℕ → ℚ) (width depth : ℕ)
    (tx ty bx b_y : ℤ) (a : AcState)
    (hc : (b_y - ty).toNat * ((bx - tx).toNat * depth) = a.no_of_inputs) :
    scan_patch valf width depth tx ty bx b_y a =
      (0, (scan_patch_core valf width depth tx ty bx b_y a).2) := by
  have hx : (scan_patch_core valf width depth tx ty bx b_y a).1 = a.no_of_inputs := by
    rw [scan_patch_core_count]
    exact hc
  unfold scan_patch
  dsimp only
  rw [if_neg (by simp [hx])]

theorem scan_image_patch_eq_of_count (img : ℕ → ℕ) (width depth : ℕ)
    (tx ty bx b_y : ℤ) (a : AcState)
    (hc : (b_y - ty).toNat * ((bx - tx).toNat * depth) = a.no_of_inputs) :
    scan_image_patch img width depth tx ty bx b_y a =
      (0, (scan_patch_core (fun k => pixel_to_float (img k))
            width depth tx ty bx b_y a).2) := by
  have hx : (scan_patch_core (fun k => pixel_to_float (img k))
      width depth tx ty bx b_y a).1 = a.no_of_inputs := by
    rw [scan_patch_core_count]
    exact hc
  unfold scan_image_patch
  dsimp only
  rw [if_neg (by simp [hx])]

theorem scan_patch_noi (valf : ℕ → ℚ) (width depth : ℕ)
    (tx ty bx b_y : ℤ) (a : AcState) :
    (scan_patch valf width depth tx ty bx b_y a).2.no_of_inputs =
      a.no_of_inputs := by
  unfold scan_patch
  dsimp only
  split
  · exact scan_patch_core_noi valf width depth tx ty bx b_y a
  · exact scan_patch_core_noi valf width depth tx ty bx b_y a

theorem scan_image_patch_noi (img : ℕ → ℕ) (width depth : ℕ)
    (tx ty bx b_y : ℤ) (a : AcState) :
    (scan_image_patch img width depth tx ty bx b_y a).2.no_of_inputs =
      a.no_of_inputs := by
  unfold scan_image_patch
  dsimp only
  split
  · exact scan_patch_core_noi _ width depth tx ty bx b_y a
  · exact scan_patch_core_noi _ width depth tx ty bx b_y a

theorem autocoder_update_noi (af : ℚ → ℚ) (rn : ℕ → ℕ) (a : AcState) :
    (autocoder_update af rn a).no_of_inputs = a.no_of_inputs := rfl

theorem features_patch_coords_box (x y sa sd r w h : ℤ)
    (h0 : (features_patch_coords x y sa sd r w h).status = 0) :
    (features_patch_coords x y sa sd r w h).b_y
        - (features_patch_coords x y sa sd r w h).ty = 2 * r ∧
    (features_patch_coords x y sa sd r w h).bx
        - (features_patch_coords x y sa sd r w h).tx = 2 * r := by
  unfold features_patch_coords at h0 ⊢
  dsimp only at h0 ⊢
  split_ifs at h0 ⊢ with h1 h2 h3 h4
  · exact absurd h0 (by norm_num)
  · exact absurd h0 (by norm_num)
  · exact absurd h0 (by norm_num)
  · exact absurd h0 (by norm_num)
  · constructor <;> ring

theorem features_learn_cells_eq (sa sd : ℕ) (r : ℤ) (w h : ℕ)
    (scanf : ℤ → ℤ → ℤ → ℤ → AcState → ℤ × AcState)
    (upd : AcState → AcState) (N : ℕ)
    (hscan : ∀ (x y : ℕ) (a : AcState), a.no_of_inputs = N →
      (features_patch_coords x y sa sd r w h).status = 0 →
      (scanf (features_patch_coords x y sa sd r w h).tx
        (features_patch_coords x y sa sd r w h).ty
        (features_patch_coords x y sa sd r w h).bx
        (features_patch_coords x y sa sd r w h).b_y a).1 = 0)
    (hscanp : ∀ tx ty bx b_y a, (scanf tx ty bx b_y a).2.no_of_inputs = a.no_of_inputs)
    (hupd : ∀ a : AcState, (upd a).no_of_inputs = a.no_of_inputs) :
    ∀ (cells : List (ℕ × ℕ)) (a : AcState) (err : ℚ), a.no_of_inputs = N →
      features_learn_cells sa sd r w h scanf upd cells a err =
        (0, features_learn_ref_cells sa sd r w h scanf upd
          (cells.filter (inBoundsCell sa sd r w h)) a err) := by
  intro cells
  induction cells with
  | nil => intro a err ha; rfl
  | cons c t ih =>
    intro a err ha
    by_cases hp : (features_patch_coords c.1 c.2 sa sd r w h).status = 0
    · have hfil : (c :: t).filter (inBoundsCell sa sd r w h)
          = c :: t.filter (inBoundsCell sa sd r w h) := by
        simp [List.filter_cons, inBoundsCell, hp]
      rw [hfil]
      simp only [features_learn_cells, features_learn_ref_cells]
      try dsimp only
      rw [if_neg (by simp [hp])]
      have hs := hscan c.1 c.2 a ha hp
      rw [if_neg (by simp [hs])]
      exact ih _ _ (by rw [hupd, hscanp]; exact ha)
    · have hfil : (c :: t).filter (inBoundsCell sa sd r w h)
          = t.filter (inBoundsCell sa sd r w h) := by
        simp [List.filter_cons, inBoundsCell, hp]
      rw [hfil]
      simp only [features_learn_cells]
      try dsimp only
      rw [if_pos hp]
      exact ih _ _ ha

theorem features_learn_mean_float (af : ℚ → ℚ) (rn : ℕ → ℕ) (sa sd : ℕ)
    (r : ℤ) (w h depth : ℕ) (floats : ℕ → ℚ) (l0 : ℕ) (a : AcState)
    (hr : 0 ≤ r)
    (h1 : sa * sd * a.no_of_hiddens = l0)
    (h2 : (a.no_of_inputs : ℤ) = r * r * 4 * depth) :
    FeaturesLearnMeanProp af rn sa sd r w h depth floats l0 a := by
  have hc : (2 * r).toNat * ((2 * r).toNat * depth) = a.no_of_inputs := by
    have h2r : (((2 * r).toNat : ℤ)) = 2 * r := Int.toNat_of_nonneg (by omega)
    have hcast : (((2 * r).toNat * ((2 * r).toNat * depth) : ℕ) : ℤ)
        = (a.no_of_inputs : ℤ) := by
      push_cast
      rw [h2r, h2]
      ring
    exact_mod_cast hcast
  have hkey : ∀ (x y : ℕ) (a' : AcState), a'.no_of_inputs = a.no_of_inputs →
      (features_patch_coords x y sa sd r w h).status = 0 →
      (scan_patch floats w depth (features_patch_coords x y sa sd r w h).tx
        (features_patch_coords x y sa sd r w h).ty
        (features_patch_coords x y sa sd r w h).bx
        (features_patch_coords x y sa sd r w h).b_y a').1 = 0 := by
    intro x y a' ha' h0
    obtain ⟨hb1, hb2⟩ := features_patch_coords_box x y sa sd r w h h0
    rw [scan_patch_eq_of_count floats w depth _ _ _ _ a'
      (by rw [hb1, hb2, ha']; exact hc)]
  have hmain := features_learn_cells_eq sa sd r w h (scan_patch floats w depth)
    (autocoder_update af rn) a.no_of_inputs hkey
    (fun tx ty bx b_y a' => scan_patch_noi floats w depth tx ty bx b_y a')
    (fun a' => autocoder_update_noi af rn a')
    (gridCells sa sd) a 0 rfl
  unfold FeaturesLearnMeanProp features_learn features_learn_inbounds
  rw [if_neg (by simp [h1]), if_neg (by simp [h2])]
  dsimp only
  rw [hmain]
  split
  · rfl
  · rename_i hcond
    exact absurd rfl hcond

theorem features_learn_mean_image (af : ℚ → ℚ) (rn : ℕ → ℕ) (sa sd : ℕ)
    (r : ℤ) (w h depth : ℕ) (img : ℕ → ℕ) (l0 : ℕ) (a : AcState)
    (hr : 0 ≤ r)
    (h1 : sa * sd * a.no_of_hiddens = l0)
    (h2 : (a.no_of_inputs : ℤ) = r * r * 4 * depth) :
    FeaturesLearnImageMeanProp af rn sa sd r w h depth img l0 a := by
  have hc : (2 * r).toNat * ((2 * r).toNat * depth) = a.no_of_inputs := by
    have h2r : (((2 * r).toNat : ℤ)) = 2 * r := Int.toNat_of_nonneg (by omega)
    have hcast : (((2 * r).toNat * ((2 * r).toNat * depth) : ℕ) : ℤ)
        = (a.no_of_inputs : ℤ) := by
      push_cast
      rw [h2r, h2]
      ring
    exact_mod_cast hcast
  have hkey : ∀ (x y : ℕ) (a' : AcState), a'.no_of_inputs = a.no_of_inputs →
      (features_patch_coords x y sa sd r w h).status = 0 →
      (scan_image_patch img w depth (features_patch_coords x y sa sd r w h).tx
        (features_patch_coords x y sa sd r w h).ty
        (features_patch_coords x y sa sd r w h).bx
        (features_patch_coords x y sa sd r w h).b_y a').1 = 0 := by
    intro x y a' ha' h0
    obtain ⟨hb1, hb2⟩ := features_patch_coords_box x y sa sd r w h h0
    rw [scan_image_patch_eq_of_count img w depth _ _ _ _ a'
      (by rw [hb1, hb2, ha']; exact hc)]
  have hmain := features_learn_cells_eq sa sd r w h (scan_image_patch img w depth)
    (autocoder_update af rn) a.no_of_inputs hkey
    (fun tx ty bx b_y a' => scan_image_patch_noi img w depth tx ty bx b_y a')
    (fun a' => autocoder_update_noi af rn a')
    (gridCells sa sd) a 0 rfl
  unfold FeaturesLearnImageMeanProp features_learn_from_image features_learn_inbounds
  rw [if_neg (by simp [h1]), if_neg (by simp [h2])]
  dsimp only
  rw [hmain]
  split
  · rfl
  · rename_i hcond
    exact absurd rfl hcond

/-- Claim C2 (corrected): with matching geometry (`samples_across * samples_down *
no_of_hiddens = layer0_units`, `no_of_inputs = patch_radius² * 4 * depth`) and a
non-negative patch radius, both feature-learning variants succeed, skip exactly
the out-of-bounds grid cells, run one online autocoder update per in-bounds
cell, and return as `avg_error` the accumulated error sum divided by
`samples_across * samples_down` — the total number of grid cells, not the
number of in-bounds cells as the spec claims. -/
theorem features_learn_mean_spec (af : ℚ → ℚ) (rn : ℕ → ℕ) (sa sd : ℕ)
    (r : ℤ) (w h depth iw ihh idp : ℕ) (floats : ℕ → ℚ) (img : ℕ → ℕ)
    (l0 : ℕ) (a : AcState)
    (hr : 0 ≤ r)
    (h1 : sa * sd * a.no_of_hiddens = l0)
    (h2 : (a.no_of_inputs : ℤ) = r * r * 4 * depth)
    (h3 : (a.no_of_inputs : ℤ) = r * r * 4 * idp) :
    FeaturesLearnMeanProp af rn sa sd r w h depth floats l0 a ∧
    FeaturesLearnImageMeanProp af rn sa sd r iw ihh idp img l0 a :=
  ⟨features_learn_mean_float af rn sa sd r w h depth floats l0 a hr h1 h2,
   features_learn_mean_image af rn sa sd r iw ihh idp img l0 a hr h1 h3⟩

theorem features_learn_mean_spec_witness :
    (0 : ℤ) ≤ 1 ∧ 2 * 2 * acC2.no_of_hiddens = 4 ∧
    (acC2.no_of_inputs : ℤ) = 1 * 1 * 4 * 1 ∧
    (FeaturesLearnMeanProp afHalf rnSucc 2 2 1 4 4 1 (fun _ => 1) 4 acC2 ∧
     FeaturesLearnImageMeanProp afHalf rnSucc 2 2 1 4 4 1 (fun _ => 0) 4 acC2) :=
  ⟨by decide, by decide, by decide,
   features_learn_mean_spec afHalf rnSucc 2 2 1 4 4 1 4 4 1 (fun _ => 1)
     (fun _ => 0) 4 acC2 (by decide) (by decide) (by decide) (by decide)⟩

set_option maxHeartbeats 4000000 in
/-- Claim C2 counterexample to the spec's divisor: on a 2×2 grid over a 4×4
single-channel source with patch radius 1, only the cell (1,1) is in bounds;
the call succeeds with error sum 2, the spec's mean over the 1 in-bounds cell
is 2, but the function returns 2/4 = 1/2 — the sum divided by all grid
cells. -/
theorem features_learn_mean_counterexample :
    (features_learn afHalf rnSucc 2 2 1 4 4 1 (fun _ => 1) 4 acC2).1 = 0 ∧
    (features_learn_inbounds 2 2 1 4 4 (scan_patch (fun _ => 1) 4 1)
        (autocoder_update afHalf rnSucc) acC2).2.2 = 1 ∧
    (features_learn_inbounds 2 2 1 4 4 (scan_patch (fun _ => 1) 4 1)
        (autocoder_update afHalf rnSucc) acC2).2.1 = 2 ∧
    (features_learn afHalf rnSucc 2 2 1 4 4 1 (fun _ => 1) 4 acC2).2.2 ≠
      (features_learn_inbounds 2 2 1 4 4 (scan_patch (fun _ => 1) 4 1)
          (autocoder_update afHalf rnSucc) acC2).2.1 /
        (((features_learn_inbounds 2 2 1 4 4 (scan_patch (fun _ => 1) 4 1)
            (autocoder_update afHalf rnSucc) acC2).2.2 : ℕ) : ℚ) := by
  have hprop := features_learn_mean_float afHalf rnSucc 2 2 1 4 4 1 (fun _ => 1) 4 acC2
    (by decide) (by decide) (by decide)
  unfold FeaturesLearnMeanProp at hprop
  have hcount : (features_learn_inbounds 2 2 1 4 4 (scan_patch (fun _ => 1) 4 1)
      (autocoder_update afHalf rnSucc) acC2).2.2 = 1 := by decide
  have hfil : (gridCells 2 2).filter (inBoundsCell 2 2 1 4 4) = [(1, 1)] := by decide
  have hr1 : List.range 1 = [0] := rfl
  have hr2 : List.range 2 = [0, 1] := rfl
  have hr4 : List.range 4 = [0, 1, 2, 3] := rfl
  have ht0 : Int.tdiv 0 2 = 0 := rfl
  have ht4 : Int.tdiv 4 2 = 2 := rfl
  have htn2 : Int.toNat 2 = 2 := rfl
  have hS : (features_learn_inbounds 2 2 1 4 4 (scan_patch (fun _ => 1) 4 1)
      (autocoder_update afHalf rnSucc) acC2).2.1 = 2 := by
    unfold features_learn_inbounds
    dsimp only
    rw [hfil]
    norm_num [features_learn_ref_cells, features_patch_coords, scan_patch,
      scan_patch_core, scan_step, autocoder_set_input, arraySet, autocoder_update,
      autocoder_learn, autocoder_backprop, autocoder_feed_forward, autocoder_decode,
      autocoder_encode_self, autocoder_encode_adder, qabs, afHalf, rnSucc, acC2,
      acZero, hr1, hr2, hr4, ht0, ht4, htn2]
  refine ⟨?_, hcount, hS, ?_⟩
  · rw [hprop]
  · rw [hprop, hS, hcount]
    dsimp only
    norm_num

/-- Claim C9: `conv_save` followed by `conv_load` does not reproduce the
training-progress fields: the loaded pipeline has `current_layer = 0`,
`training_complete = 0` and `itterations = 0` although the saved pipeline had
`current_layer = 1`, `training_complete = 1` and `itterations = 5`, because
`conv_load` calls `conv_init`, which resets them after they were read. -/
theorem conv_load_resets_progress :
    (conv_load rnSucc riwZero (conv_save convC9) convBlank).map
        (fun c => (c.current_layer, c.training_complete, c.itterations))
      = some (0, 0, 0) ∧
    (convC9.current_layer, convC9.training_complete, convC9.itterations)
      = (1, 1, 5) := by
  constructor
  · decide
  · decide

theorem foldl_pres_mem {α β : Type} (P : α → Prop) :
    ∀ (l : List β) (f : α → β → α),
      (∀ a b, b ∈ l → P a → P (f a b)) → ∀ a, P a → P (l.foldl f a) := by
  intro l
  induction l with
  | nil => intro f hf a h; simpa using h
  | cons b t ih =>
    intro f hf a h
    simp only [List.foldl_cons]
    exact ih f (fun a' b' hb' ha' => hf a' b' (List.mem_cons_of_mem _ hb') ha') _
      (hf a b (List.mem_cons_self _ _) h)

theorem slice_index_eq (A B F f : ℕ) (hf : f < F)
    (h1 : B * F ≤ A * F + f) (h2 : A * F + f < B * F + F) : A = B := by
  have hAB : A < B + 1 := by
    have hm : A * F < (B + 1) * F := by
      calc A * F ≤ A * F + f := Nat.le_add_right _ _
        _ < B * F + F := h2
        _ = (B + 1) * F := by ring
    exact lt_of_mul_lt_mul_right hm (Nat.zero_le F)
  have hBA : B < A + 1 := by
    have hm : B * F < (A + 1) * F := by
      calc B * F ≤ A * F + f := h1
        _ < A * F + F := by omega
        _ = (A + 1) * F := by ring
    exact lt_of_mul_lt_mul_right hm (Nat.zero_le F)
  omega

theorem cell_index_inj (sa fx fy gx gy : ℕ) (h1 : fx < sa) (h2 : gx < sa)
    (h : fy * sa + fx = gy * sa + gx) : fx = gx ∧ fy = gy := by
  have hy : fy = gy := slice_index_eq fy gy sa fx h1 (by omega) (by omega)
  subst hy
  omega

theorem gridCells_mem (sa sd : ℕ) (c : ℕ × ℕ) :
    c ∈ gridCells sa sd ↔ c.1 < sa ∧ c.2 < sd := by
  rcases c with ⟨x, y⟩
  unfold gridCells
  simp only [List.mem_flatMap, List.mem_reverse, List.mem_range, List.mem_map,
    Prod.mk.injEq]
  constructor
  · rintro ⟨a, ha, b, hb, rfl, rfl⟩
    exact ⟨hb, ha⟩
  · rintro ⟨h1, h2⟩
    exact ⟨y, h2, x, h1, rfl, rfl⟩

theorem autocoder_encode_ext_state (af : ℚ → ℚ) (rn : ℕ → ℕ) (a : AcState)
    (dest : ℕ → ℚ) (off : ℕ) (ud : Bool) :
    (autocoder_encode_ext af rn a dest off ud).1.no_of_inputs = a.no_of_inputs ∧
    (autocoder_encode_ext af rn a dest off ud).1.no_of_hiddens = a.no_of_hiddens ∧
    (autocoder_encode_ext af rn a dest off ud).1.weights = a.weights ∧
    (autocoder_encode_ext af rn a dest off ud).1.bias = a.bias := by
  unfold autocoder_encode_ext
  apply foldl_pres (fun st : AcState × (ℕ → ℚ) =>
    st.1.no_of_inputs = a.no_of_inputs ∧ st.1.no_of_hiddens = a.no_of_hiddens ∧
    st.1.weights = a.weights ∧ st.1.bias = a.bias)
  · intro st h hst
    unfold autocoder_encode_unit
    dsimp only
    split_ifs <;> exact hst
  · exact ⟨rfl, rfl, rfl, rfl⟩

theorem autocoder_encode_ext_dest (af : ℚ → ℚ) (rn : ℕ → ℕ) (a : AcState)
    (dest : ℕ → ℚ) (off : ℕ) (ud : Bool) (k : ℕ)
    (hk : k < off ∨ off + a.no_of_hiddens ≤ k) :
    (autocoder_encode_ext af rn a dest off ud).2 k = dest k := by
  unfold autocoder_encode_ext
  apply foldl_pres_mem (fun st : AcState × (ℕ → ℚ) => st.2 k = dest k)
  · intro st h hmem hst
    have hh : h < a.no_of_hiddens := List.mem_range.mp (List.mem_reverse.mp hmem)
    unfold autocoder_encode_unit
    dsimp only
    split_ifs <;>
      first
        | exact hst
        | (unfold arraySet
           dsimp only
           rw [if_neg (by omega)]
           exact hst)
  · rfl

theorem scan_patch_core_pres (valf : ℕ → ℚ) (width depth : ℕ)
    (tx ty bx b_y : ℤ) (a : AcState) :
    (scan_patch_core valf width depth tx ty bx b_y a).2.no_of_hiddens =
      a.no_of_hiddens ∧
    (scan_patch_core valf width depth tx ty bx b_y a).2.weights = a.weights ∧
    (scan_patch_core valf width depth tx ty bx b_y a).2.bias = a.bias := by
  unfold scan_patch_core
  apply foldl_pres (fun st : ℕ × AcState =>
    st.2.no_of_hiddens = a.no_of_hiddens ∧ st.2.weights = a.weights ∧
    st.2.bias = a.bias)
  · intro st yy h
    apply foldl_pres (fun st : ℕ × AcState =>
      st.2.no_of_hiddens = a.no_of_hiddens ∧ st.2.weights = a.weights ∧
      st.2.bias = a.bias)
    · intro st2 xx h2
      apply foldl_pres (fun st : ℕ × AcState =>
        st.2.no_of_hiddens = a.no_of_hiddens ∧ st.2.weights = a.weights ∧
        st.2.bias = a.bias)
      · intro st3 d h3
        exact h3
      · exact h2
    · exact h
  · exact ⟨rfl, rfl, rfl⟩

theorem scan_patch_pres (valf : ℕ → ℚ) (width depth : ℕ)
    (tx ty bx b_y : ℤ) (a : AcState) :
    (scan_patch valf width depth tx ty bx b_y a).2.no_of_inputs = a.no_of_inputs ∧
    (scan_patch valf width depth tx ty bx b_y a).2.no_of_hiddens = a.no_of_hiddens ∧
    (scan_patch valf width depth tx ty bx b_y a).2.weights = a.weights ∧
    (scan_patch valf width depth tx ty bx b_y a).2.bias = a.bias := by
  unfold scan_patch
  dsimp only
  split <;>
    exact ⟨scan_patch_core_noi valf width depth tx ty bx b_y a,
      (scan_patch_core_pres valf width depth tx ty bx b_y a).1,
      (scan_patch_core_pres valf width depth tx ty bx b_y a).2.1,
      (scan_patch_core_pres valf width depth tx ty bx b_y a).2.2⟩

theorem scan_image_patch_pres (img : ℕ → ℕ) (width depth : ℕ)
    (tx ty bx b_y : ℤ) (a : AcState) :
    (scan_image_patch img width depth tx ty bx b_y a).2.no_of_inputs =
      a.no_of_inputs ∧
    (scan_image_patch img width depth tx ty bx b_y a).2.no_of_hiddens =
      a.no_of_hiddens ∧
    (scan_image_patch img width depth tx ty bx b_y a).2.weights = a.weights ∧
    (scan_image_patch img width depth tx ty bx b_y a).2.bias = a.bias := by
  unfold scan_image_patch
  dsimp only
  split <;>
    exact ⟨scan_patch_core_noi _ width depth tx ty bx b_y a,
      (scan_patch_core_pres _ width depth tx ty bx b_y a).1,
      (scan_patch_core_pres _ width depth tx ty bx b_y a).2.1,
      (scan_patch_core_pres _ width depth tx ty bx b_y a).2.2⟩

theorem scan_patch_ok_geom (floats : ℕ → ℚ) (depth sa sd w h : ℕ) (r : ℤ)
    (N : ℕ) (hr : 0 ≤ r) (hN : (N : ℤ) = r * r * 4 * depth) :
    ∀ (x y : ℕ) (a' : AcState), a'.no_of_inputs = N →
      (features_patch_coords x y sa sd r w h).status = 0 →
      (scan_patch floats w depth (features_patch_coords x y sa sd r w h).tx
        (features_patch_coords x y sa sd r w h).ty
        (features_patch_coords x y sa sd r w h).bx
        (features_patch_coords x y sa sd r w h).b_y a').1 = 0 := by
  have hc : (2 * r).toNat * ((2 * r).toNat * depth) = N := by
    have h2r : (((2 * r).toNat : ℤ)) = 2 * r := Int.toNat_of_nonneg (by omega)
    have hcast : (((2 * r).toNat * ((2 * r).toNat * depth) : ℕ) : ℤ) = (N : ℤ) := by
      push_cast
      rw [h2r, hN]
      ring
    exact_mod_cast hcast
  intro x y a' ha' h0
  obtain ⟨hb1, hb2⟩ := features_patch_coords_box x y sa sd r w h h0
  rw [scan_patch_eq_of_count floats w depth _ _ _ _ a'
    (by rw [hb1, hb2, ha']; exact hc)]

theorem scan_image_patch_ok_geom (img : ℕ → ℕ) (depth sa sd w h : ℕ) (r : ℤ)
    (N : ℕ) (hr : 0 ≤ r) (hN : (N : ℤ) = r * r * 4 * depth) :
    ∀ (x y : ℕ) (a' : AcState), a'.no_of_inputs = N →
      (features_patch_coords x y sa sd r w h).status = 0 →
      (scan_image_patch img w depth (features_patch_coords x y sa sd r w h).tx
        (features_patch_coords x y sa sd r w h).ty
        (features_patch_coords x y sa sd r w h).bx
        (features_patch_coords x y sa sd r w h).b_y a').1 = 0 := by
  have hc : (2 * r).toNat * ((2 * r).toNat * depth) = N := by
    have h2r : (((2 * r).toNat : ℤ)) = 2 * r := Int.toNat_of_nonneg (by omega)
    have hcast : (((2 * r).toNat * ((2 * r).toNat * depth) : ℕ) : ℤ) = (N : ℤ) := by
      push_cast
      rw [h2r, hN]
      ring
    exact_mod_cast hcast
  intro x y a' ha' h0
  obtain ⟨hb1, hb2⟩ := features_patch_coords_box x y sa sd r w h h0
  rw [scan_image_patch_eq_of_count img w depth _ _ _ _ a'
    (by rw [hb1, hb2, ha']; exact hc)]

theorem features_convolve_cells_ok (af : ℚ → ℚ) (rn : ℕ → ℕ) (ud : Bool)
    (sa sd : ℕ) (r : ℤ) (w h : ℕ)
    (scanf : ℤ → ℤ → ℤ → ℤ → AcState → ℤ × AcState) (N F : ℕ)
    (hscan : ∀ (x y : ℕ) (a : AcState), a.no_of_inputs = N →
      (features_patch_coords x y sa sd r w h).status = 0 →
      (scanf (features_patch_coords x y sa sd r w h).tx
        (features_patch_coords x y sa sd r w h).ty
        (features_patch_coords x y sa sd r w h).bx
        (features_patch_coords x y sa sd r w h).b_y a).1 = 0)
    (hscanp : ∀ (tx ty bx b_y : ℤ) (a : AcState),
      (scanf tx ty bx b_y a).2.no_of_inputs = a.no_of_inputs ∧
      (scanf tx ty bx b_y a).2.no_of_hiddens = a.no_of_hiddens ∧
      (scanf tx ty bx b_y a).2.weights = a.weights ∧
      (scanf tx ty bx b_y a).2.bias = a.bias) :
    ∀ (cells : List (ℕ × ℕ)) (a : AcState) (L : ℕ → ℚ),
      a.no_of_inputs = N → a.no_of_hiddens = F →
      (features_convolve_cells sa F sd r w h scanf
        (fun a2 L2 idx => autocoder_encode_ext af rn a2 L2 idx ud) cells a L).1 = 0 ∧
      (features_convolve_cells sa F sd r w h scanf
        (fun a2 L2 idx => autocoder_encode_ext af rn a2 L2 idx ud) cells a L).2.1.no_of_inputs = N ∧
      (features_convolve_cells sa F sd r w h scanf
        (fun a2 L2 idx => autocoder_encode_ext af rn a2 L2 idx ud) cells a L).2.1.no_of_hiddens = F ∧
      (features_convolve_cells sa F sd r w h scanf
        (fun a2 L2 idx => autocoder_encode_ext af rn a2 L2 idx ud) cells a L).2.1.weights = a.weights ∧
      (features_convolve_cells sa F sd r w h scanf
        (fun a2 L2 idx => autocoder_encode_ext af rn a2 L2 idx ud) cells a L).2.1.bias = a.bias := by
  intro cells
  induction cells with
  | nil => intro a L ha hh; exact ⟨rfl, ha, hh, rfl, rfl⟩
  | cons c t ih =>
    intro a L ha hh
    by_cases hp : (features_patch_coords c.1 c.2 sa sd r w h).status = 0
    · have hs := hscan c.1 c.2 a ha hp
      simp only [features_convolve_cells]
      try dsimp only
      rw [if_neg (by simp [hp]), if_neg (by simp [hs])]
      obtain ⟨s1, s2, s3, s4⟩ := hscanp (features_patch_coords c.1 c.2 sa sd r w h).tx
        (features_patch_coords c.1 c.2 sa sd r w h).ty
        (features_patch_coords c.1 c.2 sa sd r w h).bx
        (features_patch_coords c.1 c.2 sa sd r w h).b_y a
      obtain ⟨e1, e2, e3, e4⟩ := autocoder_encode_ext_state af rn
        (scanf (features_patch_coords c.1 c.2 sa sd r w h).tx
          (features_patch_coords c.1 c.2 sa sd r w h).ty
          (features_patch_coords c.1 c.2 sa sd r w h).bx
          (features_patch_coords c.1 c.2 sa sd r w h).b_y a).2 L
        ((c.2 * sa + c.1) * F) ud
      obtain ⟨r1, r2, r3, r4, r5⟩ := ih
        ((autocoder_encode_ext af rn
          (scanf (features_patch_coords c.1 c.2 sa sd r w h).tx
            (features_patch_coords c.1 c.2 sa sd r w h).ty
            (features_patch_coords c.1 c.2 sa sd r w h).bx
            (features_patch_coords c.1 c.2 sa sd r w h).b_y a).2 L
          ((c.2 * sa + c.1) * F) ud).1)
        ((autocoder_encode_ext af rn
          (scanf (features_patch_coords c.1 c.2 sa sd r w h).tx
            (features_patch_coords c.1 c.2 sa sd r w h).ty
            (features_patch_coords c.1 c.2 sa sd r w h).bx
            (features_patch_coords c.1 c.2 sa sd r w h).b_y a).2 L
          ((c.2 * sa + c.1) * F) ud).2)
        (by rw [e1, s1]; exact ha) (by rw [e2, s2]; exact hh)
      exact ⟨r1, r2, r3, by rw [r4, e3, s3], by rw [r5, e4, s4]⟩
    · simp only [features_convolve_cells]
      try dsimp only
      rw [if_pos hp]
      exact ih a _ ha hh

theorem features_convolve_cells_zero_stable (af : ℚ → ℚ) (rn : ℕ → ℕ) (ud : Bool)
    (sa sd : ℕ) (r : ℤ) (w h : ℕ)
    (scanf : ℤ → ℤ → ℤ → ℤ → AcState → ℤ × AcState) (N F : ℕ)
    (hscan : ∀ (x y : ℕ) (a : AcState), a.no_of_inputs = N →
      (features_patch_coords x y sa sd r w h).status = 0 →
      (scanf (features_patch_coords x y sa sd r w h).tx
        (features_patch_coords x y sa sd r w h).ty
        (features_patch_coords x y sa sd r w h).bx
        (features_patch_coords x y sa sd r w h).b_y a).1 = 0)
    (hscanp : ∀ (tx ty bx b_y : ℤ) (a : AcState),
      (scanf tx ty bx b_y a).2.no_of_inputs = a.no_of_inputs ∧
      (scanf tx ty bx b_y a).2.no_of_hiddens = a.no_of_hiddens ∧
      (scanf tx ty bx b_y a).2.weights = a.weights ∧
      (scanf tx ty bx b_y a).2.bias = a.bias)
    (fx fy : ℕ) (hfx : fx < sa)
    (hoob : (features_patch_coords fx fy sa sd r w h).status ≠ 0) :
    ∀ (cells : List (ℕ × ℕ)) (a : AcState) (L : ℕ → ℚ),
      a.no_of_inputs = N → a.no_of_hiddens = F →
      (∀ c ∈ cells, c.1 < sa) →
      (∀ g, g < F → L ((fy * sa + fx) * F + g) = 0) →
      ∀ f, f < F →
        (features_convolve_cells sa F sd r w h scanf
          (fun a2 L2 idx => autocoder_encode_ext af rn a2 L2 idx ud) cells a L).2.2
          ((fy * sa + fx) * F + f) = 0 := by
  intro cells
  induction cells with
  | nil => intro a L ha hh hb hz f hf; exact hz f hf
  | cons c t ih =>
    intro a L ha hh hb hz f hf
    by_cases hp : (features_patch_coords c.1 c.2 sa sd r w h).status = 0
    · have hs := hscan c.1 c.2 a ha hp
      have hcne : ¬(c.1 = fx ∧ c.2 = fy) := by
        rintro ⟨h1', h2'⟩
        rw [h1', h2'] at hp
        exact hoob hp
      have hdis : ∀ g, g < F →
          (fy * sa + fx) * F + g < (c.2 * sa + c.1) * F ∨
          (c.2 * sa + c.1) * F + F ≤ (fy * sa + fx) * F + g := by
        intro g hg
        by_contra hcon
        push_neg at hcon
        obtain ⟨hg1, hg2⟩ := hcon
        have heq := slice_index_eq (fy * sa + fx) (c.2 * sa + c.1) F g hg hg1 hg2
        have hij := cell_index_inj sa fx fy c.1 c.2 hfx
          (hb c (List.mem_cons_self c t)) heq
        exact hcne ⟨hij.1.symm, hij.2.symm⟩
      obtain ⟨s1, s2, s3, s4⟩ := hscanp (features_patch_coords c.1 c.2 sa sd r w h).tx
        (features_patch_coords c.1 c.2 sa sd r w h).ty
        (features_patch_coords c.1 c.2 sa sd r w h).bx
        (features_patch_coords c.1 c.2 sa sd r w h).b_y a
      simp only [features_convolve_cells]
      try dsimp only
      rw [if_neg (by simp [hp]), if_neg (by simp [hs])]
      refine ih
        ((autocoder_encode_ext af rn
          (scanf (features_patch_coords c.1 c.2 sa sd r w h).tx
            (features_patch_coords c.1 c.2 sa sd r w h).ty
            (features_patch_coords c.1 c.2 sa sd r w h).bx
            (features_patch_coords c.1 c.2 sa sd r w h).b_y a).2 L
          ((c.2 * sa + c.1) * F) ud).1)
        ((autocoder_encode_ext af rn
          (scanf (features_patch_coords c.1 c.2 sa sd r w h).tx
            (features_patch_coords c.1 c.2 sa sd r w h).ty
            (features_patch_coords c.1 c.2 sa sd r w h).bx
            (features_patch_coords c.1 c.2 sa sd r w h).b_y a).2 L
          ((c.2 * sa + c.1) * F) ud).2)
        ?_ ?_ ?_ ?_ f hf
      · rw [(autocoder_encode_ext_state af rn _ L ((c.2 * sa + c.1) * F) ud).1, s1]
        exact ha
      · rw [(autocoder_encode_ext_state af rn _ L ((c.2 * sa + c.1) * F) ud).2.1, s2]
        exact hh
      · exact fun c' hc' => hb c' (List.mem_cons_of_mem _ hc')
      · intro g hg
        rw [autocoder_encode_ext_dest af rn _ L ((c.2 * sa + c.1) * F) ud _
          (by rw [s2, hh]; exact hdis g hg)]
        exact hz g hg
    · simp only [features_convolve_cells]
      try dsimp only
      rw [if_pos hp]
      refine ih a (zeroSlice L ((c.2 * sa + c.1) * F) F) ha hh
        (fun c' hc' => hb c' (List.mem_cons_of_mem _ hc')) ?_ f hf
      intro g hg
      simp only [zeroSlice]
      split_ifs with hin
      · rfl
      · exact hz g hg

theorem features_convolve_cells_oob_zero (af : ℚ → ℚ) (rn : ℕ → ℕ) (ud : Bool)
    (sa sd : ℕ) (r : ℤ) (w h : ℕ)
    (scanf : ℤ → ℤ → ℤ → ℤ → AcState → ℤ × AcState) (N F : ℕ)
    (hscan : ∀ (x y : ℕ) (a : AcState), a.no_of_inputs = N →
      (features_patch_coords x y sa sd r w h).status = 0 →
      (scanf (features_patch_coords x y sa sd r w h).tx
        (features_patch_coords x y sa sd r w h).ty
        (features_patch_coords x y sa sd r w h).bx
        (features_patch_coords x y sa sd r w h).b_y a).1 = 0)
    (hscanp : ∀ (tx ty bx b_y : ℤ) (a : AcState),
      (scanf tx ty bx b_y a).2.no_of_inputs = a.no_of_inputs ∧
      (scanf tx ty bx b_y a).2.no_of_hiddens = a.no_of_hiddens ∧
      (scanf tx ty bx b_y a).2.weights = a.weights ∧
      (scanf tx ty bx b_y a).2.bias = a.bias)
    (fx fy : ℕ) (hfx : fx < sa)
    (hoob : (features_patch_coords fx fy sa sd r w h).status ≠ 0) :
    ∀ (cells : List (ℕ × ℕ)) (a : AcState) (L : ℕ → ℚ),
      a.no_of_inputs = N → a.no_of_hiddens = F →
      (∀ c ∈ cells, c.1 < sa) → (fx, fy) ∈ cells →
      ∀ f, f < F →
        (features_convolve_cells sa F sd r w h scanf
          (fun a2 L2 idx => autocoder_encode_ext af rn a2 L2 idx ud) cells a L).2.2
          ((fy * sa + fx) * F + f) = 0 := by
  intro cells
  induction cells with
  | nil => intro a L ha hh hb hmem f hf; exact absurd hmem (List.not_mem_nil _)
  | cons c t ih =>
    intro a L ha hh hb hmem f hf
    by_cases hc : c = (fx, fy)
    · subst hc
      simp only [features_convolve_cells]
      try dsimp only
      rw [if_pos hoob]
      refine features_convolve_cells_zero_stable af rn ud sa sd r w h scanf N F
        hscan hscanp fx fy hfx hoob t a _ ha hh
        (fun c' hc' => hb c' (List.mem_cons_of_mem _ hc')) ?_ f hf
      intro g hg
      simp only [zeroSlice]
      rw [if_pos (by omega)]
    · have hmem' : (fx, fy) ∈ t := by
        rcases List.mem_cons.mp hmem with h' | h'
        · exact absurd h'.symm hc
        · exact h'
      by_cases hp : (features_patch_coords c.1 c.2 sa sd r w h).status = 0
      · have hs := hscan c.1 c.2 a ha hp
        obtain ⟨s1, s2, s3, s4⟩ := hscanp (features_patch_coords c.1 c.2 sa sd r w h).tx
          (features_patch_coords c.1 c.2 sa sd r w h).ty
          (features_patch_coords c.1 c.2 sa sd r w h).bx
          (features_patch_coords c.1 c.2 sa sd r w h).b_y a
        simp only [features_convolve_cells]
        try dsimp only
        rw [if_neg (by simp [hp]), if_neg (by simp [hs])]
        refine ih
          ((autocoder_encode_ext af rn
            (scanf (features_patch_coords c.1 c.2 sa sd r w h).tx
              (features_patch_coords c.1 c.2 sa sd r w h).ty
              (features_patch_coords c.1 c.2 sa sd r w h).bx
              (features_patch_coords c.1 c.2 sa sd r w h).b_y a).2 L
            ((c.2 * sa + c.1) * F) ud).1)
          ((autocoder_encode_ext af rn
            (scanf (features_patch_coords c.1 c.2 sa sd r w h).tx
              (features_patch_coords c.1 c.2 sa sd r w h).ty
              (features_patch_coords c.1 c.2 sa sd r w h).bx
              (features_patch_coords c.1 c.2 sa sd r w h).b_y a).2 L
            ((c.2 * sa + c.1) * F) ud).2)
          ?_ ?_ (fun c' hc' => hb c' (List.mem_cons_of_mem _ hc')) hmem' f hf
        · rw [(autocoder_encode_ext_state af rn _ L ((c.2 * sa + c.1) * F) ud).1, s1]
          exact ha
        · rw [(autocoder_encode_ext_state af rn _ L ((c.2 * sa + c.1) * F) ud).2.1, s2]
          exact hh
      · simp only [features_convolve_cells]
        try dsimp only
        rw [if_pos hp]
        exact ih a _ ha hh (fun c' hc' => hb c' (List.mem_cons_of_mem _ hc'))
          hmem' f hf

theorem features_convolve_oob_float (af : ℚ → ℚ) (rn : ℕ → ℕ) (sa sd : ℕ)
    (r : ℤ) (w h depth : ℕ) (floats : ℕ → ℚ) (l1 : ℕ) (L1 : ℕ → ℚ)
    (a : AcState) (ud : Bool) (fx fy : ℕ)
    (hr : 0 ≤ r)
    (h1 : sa * sd * a.no_of_hiddens = l1)
    (h2 : (a.no_of_inputs : ℤ) = r * r * 4 * depth)
    (hfx : fx < sa) (hfy : fy < sd)
    (hoob : (features_patch_coords fx fy sa sd r w h).status ≠ 0) :
    FeaturesConvolveOobProp af rn sa sd r w h depth floats l1 L1 a ud fx fy := by
  have hscan := scan_patch_ok_geom floats depth sa sd w h r a.no_of_inputs hr h2
  have hscanp := fun tx ty bx b_y a' => scan_patch_pres floats w depth tx ty bx b_y a'
  have hb : ∀ c ∈ gridCells sa sd, c.1 < sa :=
    fun c hc => ((gridCells_mem sa sd c).mp hc).1
  have hmem : (fx, fy) ∈ gridCells sa sd := (gridCells_mem sa sd (fx, fy)).mpr ⟨hfx, hfy⟩
  have hok := features_convolve_cells_ok af rn ud sa sd r w h
    (scan_patch floats w depth) a.no_of_inputs a.no_of_hiddens hscan hscanp
    (gridCells sa sd) a L1 rfl rfl
  have hzero := features_convolve_cells_oob_zero af rn ud sa sd r w h
    (scan_patch floats w depth) a.no_of_inputs a.no_of_hiddens hscan hscanp
    fx fy hfx hoob (gridCells sa sd) a L1 rfl rfl hb hmem
  unfold FeaturesConvolveOobProp features_convolve
  rw [if_neg (by simp [h1]), if_neg (by simp [h2])]
  exact ⟨hok.1, hzero, hok.2.2.2.1, hok.2.2.2.2⟩

theorem features_convolve_oob_image (af : ℚ → ℚ) (rn : ℕ → ℕ) (sa sd : ℕ)
    (r : ℤ) (w h depth : ℕ) (img : ℕ → ℕ) (l0 : ℕ) (L0 : ℕ → ℚ)
    (a : AcState) (ud : Bool) (fx fy : ℕ)
    (hr : 0 ≤ r)
    (h1 : sa * sd * a.no_of_hiddens = l0)
    (h2 : (a.no_of_inputs : ℤ) = r * r * 4 * depth)
    (hfx : fx < sa) (hfy : fy < sd)
    (hoob : (features_patch_coords fx fy sa sd r w h).status ≠ 0) :
    FeaturesConvolveImageOobProp af rn sa sd r w h depth img l0 L0 a ud fx fy := by
  have hscan := scan_image_patch_ok_geom img depth sa sd w h r a.no_of_inputs hr h2
  have hscanp := fun tx ty bx b_y a' => scan_image_patch_pres img w depth tx ty bx b_y a'
  have hb : ∀ c ∈ gridCells sa sd, c.1 < sa :=
    fun c hc => ((gridCells_mem sa sd c).mp hc).1
  have hmem : (fx, fy) ∈ gridCells sa sd := (gridCells_mem sa sd (fx, fy)).mpr ⟨hfx, hfy⟩
  have hok := features_convolve_cells_ok af rn ud sa sd r w h
    (scan_image_patch img w depth) a.no_of_inputs a.no_of_hiddens hscan hscanp
    (gridCells sa sd) a L0 rfl rfl
  have hzero := features_convolve_cells_oob_zero af rn ud sa sd r w h
    (scan_image_patch img w depth) a.no_of_inputs a.no_of_hiddens hscan hscanp
    fx fy hfx hoob (gridCells sa sd) a L0 rfl rfl hb hmem
  unfold FeaturesConvolveImageOobProp features_convolve_image
  rw [if_neg (by simp [h1]), if_neg (by simp [h2])]
  exact ⟨hok.1, hzero, hok.2.2.2.1, hok.2.2.2.2⟩

/-- Claim C6: with matching geometry and a non-negative patch radius, both
convolve variants succeed and, for any grid cell whose patch is out of
bounds, every element of that cell's destination feature slice holds exactly
zero after the call — whatever the destination buffer held before — and no
learning occurs: the autocoder's weights and biases are unchanged. -/
theorem features_convolve_oob_spec (af : ℚ → ℚ) (rn : ℕ → ℕ) (sa sd : ℕ)
    (r : ℤ) (w h depth iw ihh idp : ℕ) (floats : ℕ → ℚ) (img : ℕ → ℕ)
    (l1 : ℕ) (L1 L0 : ℕ → ℚ) (a : AcState) (ud : Bool) (fx fy : ℕ)
    (hr : 0 ≤ r)
    (h1 : sa * sd * a.no_of_hiddens = l1)
    (h2 : (a.no_of_inputs : ℤ) = r * r * 4 * depth)
    (h3 : (a.no_of_inputs : ℤ) = r * r * 4 * idp)
    (hfx : fx < sa) (hfy : fy < sd)
    (hoob1 : (features_patch_coords fx fy sa sd r w h).status ≠ 0)
    (hoob2 : (features_patch_coords fx fy sa sd r iw ihh).status ≠ 0) :
    FeaturesConvolveOobProp af rn sa sd r w h depth floats l1 L1 a ud fx fy ∧
    FeaturesConvolveImageOobProp af rn sa sd r iw ihh idp img l1 L0 a ud fx fy :=
  ⟨features_convolve_oob_float af rn sa sd r w h depth floats l1 L1 a ud fx fy
      hr h1 h2 hfx hfy hoob1,
   features_convolve_oob_image af rn sa sd r iw ihh idp img l1 L0 a ud fx fy
      hr h1 h3 hfx hfy hoob2⟩

theorem features_convolve_oob_spec_witness :
    (0 : ℤ) ≤ 1 ∧ (0 : ℕ) < 2 ∧
    (features_patch_coords 0 0 2 2 1 4 4).status ≠ 0 ∧
    (FeaturesConvolveOobProp afHalf rnSucc 2 2 1 4 4 1 (fun _ => 1) 4
        (fun _ => 1) acC2 false 0 0 ∧
     FeaturesConvolveImageOobProp afHalf rnSucc 2 2 1 4 4 1 (fun _ => 0) 4
        (fun _ => 1) acC2 false 0 0) :=
  ⟨by decide, by decide, by decide,
   features_convolve_oob_spec afHalf rnSucc 2 2 1 4 4 1 4 4 1 (fun _ => 1)
     (fun _ => 0) 4 (fun _ => 1) (fun _ => 1) acC2 false 0 0
     (by decide) (by decide) (by decide) (by decide) (by decide) (by decide)
     (by decide) (by decide)⟩
